import Mathlib

/-!
# Symbol tables of HDF5 groups (`src/H5Gstab.c`)

A shallow embedding of `H5Gstab.c`: the symbol-table manager
(`H5G_stab_create`, `H5G_stab_find`, `H5G_stab_insert`, `H5G_stab_remove`,
`H5G_stab_delete`) and the path-cache maintainer (`H5G_insert_name`).

Conventions of the embedding.

* A C string is the `List Char` of its characters before the terminating NUL.
* `size_t` values are natural numbers; every `size_t` operation of the source
  reduces modulo `2^64`.
* A procedure that mutates its arguments returns the new values.  The result
  is an `Option`: `none` stands for an execution without a defined meaning
  (a violated `assert`, a read through a dangling or null pointer, a write
  past the end of a buffer).
* A `herr_t` result is `SUCCEED` or `FAIL` with the major and minor error
  numbers the function itself pushes with `HGOTO_ERROR`.
* Entries handed to one call (`loc` and `obj`, `grp_ent` and `obj_ent`) are
  distinct objects.
* The bookkeeping of `FUNC_ENTER_NOAPI` and `FUNC_LEAVE_NOAPI` is left out.
-/

namespace H5G

/-! ## Machine integers and C strings -/

/-- One more than the largest `size_t`. -/
def SIZE_MOD : Nat := 2 ^ 64

/-- The value `(size_t)(-1)`. -/
def SIZE_MAX : Nat := 2 ^ 64 - 1

/-- Addition of two `size_t` values. -/
def size_add (a b : Nat) : Nat := (a + b) % SIZE_MOD

/-- Subtraction of two `size_t` values (wraps below zero). -/
def size_sub (a b : Nat) : Nat := (a % SIZE_MOD + SIZE_MOD - b % SIZE_MOD) % SIZE_MOD

/-- The terminator of a C string. -/
def NUL : Char := Char.ofNat 0

/-- The read `s[i]` of a C string: the characters, then the terminator at
index `strlen s`; any other index is outside the object. -/
def cstr_index (s : List Char) (i : Nat) : Option Char :=
  if i < s.length then s.get? i
  else if i = s.length then some NUL
  else none

/-- The length `strlen(s)`, as a `size_t`. -/
def HDstrlen (s : List Char) : Nat := s.length % SIZE_MOD

/-- A block of `cap` bytes from the `str_buf` free list, holding the C string
`data` once one has been written to it. -/
structure str_buf where
  cap : Nat
  data : List Char
  deriving DecidableEq

/-- The call `strcpy(dst, src)`: writes `strlen src + 1` bytes. -/
def HDstrcpy (dst : str_buf) (src : List Char) : Option str_buf :=
  if src.length + 1 ≤ dst.cap then some { dst with data := src } else none

/-- The call `strcat(dst, src)`: appends at the terminator of `dst`. -/
def HDstrcat (dst : str_buf) (src : List Char) : Option str_buf :=
  if dst.data.length + src.length + 1 ≤ dst.cap then
    some { dst with data := dst.data ++ src }
  else none

/-! ## Error values -/

/-- Major error numbers used in `H5Gstab.c`. -/
inductive H5E_major_t where
  | H5E_SYM
  | H5E_DATATYPE
  | H5E_RESOURCE
  deriving DecidableEq

/-- Minor error numbers used in `H5Gstab.c`. -/
inductive H5E_minor_t where
  | H5E_CANTINIT
  | H5E_BADMESG
  | H5E_NOTFOUND
  | H5E_CANTOPENOBJ
  | H5E_LINK
  | H5E_CANTINSERT
  | H5E_NOSPACE
  | H5E_CANTDELETE
  deriving DecidableEq

/-- A `herr_t` return value together with the error the function pushed. -/
inductive herr_t where
  | SUCCEED
  | FAIL (maj : H5E_major_t) (min : H5E_minor_t)
  deriving DecidableEq

/-! ## Entries -/

/-- File addresses. -/
abbrev haddr_t := Nat

/-- The undefined address `HADDR_UNDEF`. -/
def HADDR_UNDEF : haddr_t := 2 ^ 64 - 1

/-- The test `H5F_addr_defined`. -/
def H5F_addr_defined (a : haddr_t) : Bool := a != HADDR_UNDEF

/-- An open file `H5F_t`; `shared` identifies the container it belongs to. -/
structure H5F_t where
  shared : Nat
  deriving DecidableEq

/-- The symbol table message: addresses of the B-tree and of the name heap. -/
structure H5O_stab_t where
  btree_addr : haddr_t
  heap_addr : haddr_t
  deriving DecidableEq

/-- What an entry caches. -/
inductive H5G_type_t where
  | H5G_NOTHING_CACHED
  | H5G_CACHED_STAB
  | H5G_CACHED_SLINK
  deriving DecidableEq

/-- A symbol table entry.  The two paths are pointers to reference-counted
strings (`none` is the null pointer). -/
structure H5G_entry_t where
  type : H5G_type_t
  cache_stab : H5O_stab_t
  name_off : Nat
  header : haddr_t
  file : Option H5F_t
  user_path_r : Option Nat
  canon_path_r : Option Nat
  user_path_hidden : Nat
  deriving DecidableEq

/-- An entry filled with zero bytes (`memset(&ent, 0, sizeof ent)`). -/
def H5G_entry_zero : H5G_entry_t :=
  { type := H5G_type_t.H5G_NOTHING_CACHED
    cache_stab := { btree_addr := 0, heap_addr := 0 }
    name_off := 0
    header := 0
    file := none
    user_path_r := none
    canon_path_r := none
    user_path_hidden := 0 }

/-- Modelled from the spec: `H5G_ent_copy` with depth `H5G_COPY_NULL`, which is
defined outside `H5Gstab.c`.  All fields of `src` are copied over `dst` and the
two path pointers of the copy are null ("no path fields copied", "the path is
intentionally left empty at this point"); it does not fail.  The result is
the return value (`true` for non-negative) and the new `dst`. -/
def H5G_ent_copy_NULL (_dst src : H5G_entry_t) : Bool × H5G_entry_t :=
  (true, { src with user_path_r := none, canon_path_r := none })

/-! ## Reference-counted strings and the free list -/

/-- A reference-counted string `H5RS_str_t`: its text and its count. -/
structure H5RS_str_t where
  s : List Char
  n : Nat
  deriving DecidableEq

/-- The memory this file works on: the reference-counted strings, addressed by
their index (`none` is a freed string), and the outcomes of the coming
`H5FL_BLK_MALLOC` calls (`false` is a null result; past the end of the list
every call succeeds). -/
structure Mem where
  rs : List (Option H5RS_str_t)
  alloc : List Bool
  deriving DecidableEq

/-- The string a pointer refers to, when it refers to a live one. -/
def Mem.cell (m : Mem) (p : Nat) : Option H5RS_str_t := (m.rs.get? p).join

/-- Modelled from the spec: `H5RS_decr` (`decref`, "frees at zero"), defined
outside `H5Gstab.c`.  The pointer must refer to a live string with a count
that is not zero. -/
def H5RS_decr (p : Nat) (m : Mem) : Option Mem :=
  match m.cell p with
  | none => none
  | some c =>
    if c.n = 0 then none
    else if c.n = 1 then some { m with rs := m.rs.set p none }
    else some { m with rs := m.rs.set p (some { c with n := c.n - 1 }) }

/-- Modelled from the spec: `H5RS_len` (`len`), the `strlen` of the text. -/
def H5RS_len (p : Option Nat) (m : Mem) : Option Nat :=
  match p with
  | none => none
  | some q => (m.cell q).map fun c => HDstrlen c.s

/-- Modelled from the spec: `H5RS_get_str` (`text`), the text of the string. -/
def H5RS_get_str (p : Option Nat) (m : Mem) : Option (List Char) :=
  match p with
  | none => none
  | some q => (m.cell q).map fun c => c.s

/-- Modelled from the spec: `H5RS_own` (`own(buffer)`): a new string with count
one that takes over the buffer. -/
def H5RS_own (buf : str_buf) (m : Mem) : Nat × Mem :=
  (m.rs.length, { m with rs := m.rs ++ [some { s := buf.data, n := 1 }] })

/-- The call `H5FL_BLK_MALLOC(str_buf, size)`: a block of `size` bytes, or null. -/
def H5FL_BLK_MALLOC (size : Nat) (m : Mem) : Option str_buf × Mem :=
  match m.alloc with
  | [] => (some { cap := size, data := [] }, m)
  | ok :: rest =>
    (if ok then some { cap := size, data := [] } else none, { m with alloc := rest })

/-! ## `H5G_insert_name` -/

/-- The function `H5G_insert_name`: builds the user path and the canonical path
of `obj` from those of `loc` and the component `name`. -/
def H5G_insert_name (loc obj : H5G_entry_t) (name : List Char) (m : Mem) :
    Option (herr_t × H5G_entry_t × Mem) :=
  match loc.canon_path_r with
  | none => some (herr_t.SUCCEED, obj, m)
  | some _ => do
    -- reset the previous names of the object, if they exist
    let m1 ← (match obj.user_path_r with
      | some p => H5RS_decr p m
      | none => some m)
    let obj1 := { obj with user_path_r := none }
    let m2 ← (match obj1.canon_path_r with
      | some p => H5RS_decr p m1
      | none => some m1)
    let obj2 := { obj1 with canon_path_r := none, user_path_hidden := 0 }
    -- the lengths of the strings involved
    let user_path_len ← H5RS_len loc.user_path_r m2
    let canon_path_len ← H5RS_len loc.canon_path_r m2
    let name_len := HDstrlen name
    -- the user path
    let loc_user_path ← H5RS_get_str loc.user_path_r m2
    let cu ← cstr_index loc_user_path (size_sub user_path_len 1)
    let size_u :=
      if '/' = cu then size_add (size_add user_path_len name_len) 1
      else size_add (size_add (size_add user_path_len 1) name_len) 1
    match H5FL_BLK_MALLOC size_u m2 with
    | (none, m3) =>
      some (herr_t.FAIL H5E_major_t.H5E_RESOURCE H5E_minor_t.H5E_NOSPACE, obj2, m3)
    | (some b0, m3) => do
      let b1 ← (if '/' = cu then HDstrcpy b0 loc_user_path
        else (HDstrcpy b0 loc_user_path).bind fun b => HDstrcat b ['/'])
      let new_user_path ← HDstrcat b1 name
      let (pu, m4) := H5RS_own new_user_path m3
      let obj3 := { obj2 with user_path_r := some pu }
      -- the canonical path
      let loc_canon_path ← H5RS_get_str loc.canon_path_r m4
      let cc ← cstr_index loc_canon_path (size_sub canon_path_len 1)
      let size_c :=
        if '/' = cc then size_add (size_add canon_path_len name_len) 1
        else size_add (size_add (size_add canon_path_len 1) name_len) 1
      match H5FL_BLK_MALLOC size_c m4 with
      | (none, m5) =>
        some (herr_t.FAIL H5E_major_t.H5E_RESOURCE H5E_minor_t.H5E_NOSPACE, obj3, m5)
      | (some c0, m5) => do
        let c1 ← (if '/' = cc then HDstrcpy c0 loc_canon_path
          else (HDstrcpy c0 loc_canon_path).bind fun b => HDstrcat b ['/'])
        let new_canon_path ← HDstrcat c1 name
        let (pc, m6) := H5RS_own new_canon_path m5
        let obj4 := { obj3 with canon_path_r := some pc }
        some (herr_t.SUCCEED, obj4, m6)

/-! ## The collaborators of the symbol-table manager -/

/-- The operation a B-tree callback is asked to perform. -/
inductive H5G_oper_t where
  | H5G_OPER_FIND
  | H5G_OPER_INSERT
  | H5G_OPER_REMOVE
  deriving DecidableEq

/-- The data passed through the B-tree (`name` is `none` for a null pointer). -/
structure H5G_bt_ud1_t where
  operation : H5G_oper_t
  name : Option (List Char)
  heap_addr : haddr_t
  ent : H5G_entry_t
  deriving DecidableEq

/-- The functions and macros `H5Gstab.c` uses from the name heap (`H5HL`), the
B-tree (`H5B`, always with the class `H5B_SNODE`) and the object header
(`H5O`, always for the message `H5O_STAB_ID`), over a state `σ` of theirs.
Each function returns its result and the new state; a result `none`, or
`false`, is a negative or null return value, and `H5HL_insert` returns
`SIZE_MAX` for `(size_t)(-1)`.  `H5O_modify` is always called with
`H5O_NEW_MESG`, `H5O_FLAG_CONSTANT` and the update flag 1.  The data transfer
property list is passed through unchanged and is left out. -/
structure Lib (σ : Type) where
  H5HL_SIZEOF_FREE : H5F_t → Nat
  H5F_SIZEOF_ADDR : H5F_t → Nat
  H5HL_create : H5F_t → Nat → σ → Option haddr_t × σ
  H5HL_insert : H5F_t → haddr_t → Nat → List Char → σ → Nat × σ
  H5HL_delete : H5F_t → haddr_t → σ → Bool × σ
  H5B_create : H5F_t → σ → Option haddr_t × σ
  H5B_find : H5F_t → haddr_t → H5G_bt_ud1_t → σ → Option H5G_bt_ud1_t × σ
  H5B_insert : H5F_t → haddr_t → H5G_bt_ud1_t → σ → Option H5G_bt_ud1_t × σ
  H5B_remove : H5F_t → haddr_t → H5G_bt_ud1_t → σ → Option H5G_bt_ud1_t × σ
  H5B_delete : H5F_t → haddr_t → H5G_bt_ud1_t → σ → Bool × σ
  H5O_create : H5F_t → Nat → H5G_entry_t → σ → Bool × H5G_entry_t × σ
  H5O_read : H5G_entry_t → σ → Option H5O_stab_t × σ
  H5O_modify : H5G_entry_t → H5O_stab_t → σ → Bool × σ
  H5O_close : H5G_entry_t → σ → Bool × σ

/-! ## The symbol-table manager -/

section Manager

variable {σ : Type} (lib : Lib σ)

/-- The function `H5G_stab_create`: a new empty symbol table (name heap, B-tree
and object header); `self` is the entry of the new group. -/
def H5G_stab_create (f : H5F_t) (init : Nat) (self : H5G_entry_t) (st : σ) :
    Option (herr_t × H5G_entry_t × σ) :=
  let init1 := max init (size_add (lib.H5HL_SIZEOF_FREE f) 2)
  -- create symbol table private heap
  match lib.H5HL_create f init1 st with
  | (none, st1) =>
    some (herr_t.FAIL H5E_major_t.H5E_SYM H5E_minor_t.H5E_CANTINIT, self, st1)
  | (some heap_addr, st1) =>
    match lib.H5HL_insert f heap_addr 1 [] st1 with
    | (name, st2) =>
      if SIZE_MAX = name then
        some (herr_t.FAIL H5E_major_t.H5E_SYM H5E_minor_t.H5E_CANTINIT, self, st2)
      else if 0 ≠ name then none  -- assert(0 == name)
      else
        -- create the B-tree
        match lib.H5B_create f st2 with
        | (none, st3) =>
          some (herr_t.FAIL H5E_major_t.H5E_SYM H5E_minor_t.H5E_CANTINIT, self, st3)
        | (some btree_addr, st3) =>
          -- create symbol table object header
          match lib.H5O_create f (size_add 4 ((2 * lib.H5F_SIZEOF_ADDR f) % SIZE_MOD))
              self st3 with
          | (false, self1, st4) =>
            some (herr_t.FAIL H5E_major_t.H5E_SYM H5E_minor_t.H5E_CANTINIT, self1, st4)
          | (true, self1, st4) =>
            let stab : H5O_stab_t := { btree_addr := btree_addr, heap_addr := heap_addr }
            -- insert the symbol table message into the object header
            match lib.H5O_modify self1 stab st4 with
            | (false, st5) =>
              let st6 := (lib.H5O_close self1 st5).2
              some (herr_t.FAIL H5E_major_t.H5E_SYM H5E_minor_t.H5E_CANTINIT, self1, st6)
            | (true, st5) =>
              some (herr_t.SUCCEED,
                { self1 with cache_stab := stab, type := H5G_type_t.H5G_CACHED_STAB }, st5)

/-- The function `H5G_stab_find`: looks `name` up in the symbol table of
`grp_ent` and returns its entry through `obj_ent`, which is optional.  The
entry of `udata`, not initialised by the source, starts as zero bytes. -/
def H5G_stab_find (grp_ent : H5G_entry_t) (name : List Char)
    (obj_ent : Option H5G_entry_t) (m : Mem) (st : σ) :
    Option (herr_t × Option H5G_entry_t × Mem × σ) :=
  match grp_ent.file with
  | none => none  -- assert(grp_ent->file)
  | some file =>
    if name = [] then none  -- assert(name && *name)
    else
      -- set up the udata
      match lib.H5O_read grp_ent st with
      | (none, st1) =>
        some (herr_t.FAIL H5E_major_t.H5E_SYM H5E_minor_t.H5E_BADMESG, obj_ent, m, st1)
      | (some stab, st1) =>
        let udata : H5G_bt_ud1_t :=
          { operation := H5G_oper_t.H5G_OPER_FIND, name := some name,
            heap_addr := stab.heap_addr, ent := H5G_entry_zero }
        -- search the B-tree
        match lib.H5B_find file stab.btree_addr udata st1 with
        | (none, st2) =>
          some (herr_t.FAIL H5E_major_t.H5E_SYM H5E_minor_t.H5E_NOTFOUND, obj_ent, m, st2)
        | (some udata1, st2) =>
          -- change OBJ_ENT only if found
          match obj_ent with
          | none => some (herr_t.SUCCEED, none, m, st2)
          | some obj =>
            match H5G_ent_copy_NULL obj udata1.ent with
            | (false, obj1) =>
              some (herr_t.FAIL H5E_major_t.H5E_DATATYPE H5E_minor_t.H5E_CANTOPENOBJ,
                some obj1, m, st2)
            | (true, obj1) =>
              -- insert the name into the symbol entry OBJ_ENT
              match H5G_insert_name grp_ent obj1 name m with
              | none => none
              | some (herr_t.FAIL _ _, obj2, m1) =>
                some (herr_t.FAIL H5E_major_t.H5E_SYM H5E_minor_t.H5E_CANTINIT,
                  some obj2, m1, st2)
              | some (herr_t.SUCCEED, obj2, m1) =>
                some (herr_t.SUCCEED, some obj2, m1, st2)

/-- The function `H5G_stab_insert`: inserts `obj_ent` under `name` into the
symbol table of `grp_ent`. -/
def H5G_stab_insert (grp_ent : H5G_entry_t) (name : List Char) (obj_ent : H5G_entry_t)
    (m : Mem) (st : σ) : Option (herr_t × H5G_entry_t × Mem × σ) :=
  match grp_ent.file, obj_ent.file with
  | none, _ => none  -- assert(grp_ent && grp_ent->file)
  | some _, none => none  -- assert(obj_ent && obj_ent->file)
  | some gfile, some ofile =>
    if name = [] then none  -- assert(name && *name)
    else if gfile.shared ≠ ofile.shared then
      some (herr_t.FAIL H5E_major_t.H5E_SYM H5E_minor_t.H5E_LINK, obj_ent, m, st)
    else
      -- insert the name into the symbol entry OBJ_ENT
      match H5G_insert_name grp_ent obj_ent name m with
      | none => none
      | some (herr_t.FAIL _ _, obj1, m1) =>
        some (herr_t.FAIL H5E_major_t.H5E_SYM H5E_minor_t.H5E_CANTINIT, obj1, m1, st)
      | some (herr_t.SUCCEED, obj1, m1) =>
        -- initialize data to pass through B-tree
        match lib.H5O_read grp_ent st with
        | (none, st1) =>
          some (herr_t.FAIL H5E_major_t.H5E_SYM H5E_minor_t.H5E_BADMESG, obj1, m1, st1)
        | (some stab, st1) =>
          -- the return value of the copy is not looked at
          let udata : H5G_bt_ud1_t :=
            { operation := H5G_oper_t.H5G_OPER_INSERT, name := some name,
              heap_addr := stab.heap_addr,
              ent := (H5G_ent_copy_NULL H5G_entry_zero obj1).2 }
          -- insert
          match lib.H5B_insert gfile stab.btree_addr udata st1 with
          | (none, st2) =>
            some (herr_t.FAIL H5E_major_t.H5E_SYM H5E_minor_t.H5E_CANTINSERT,
              obj1, m1, st2)
          | (some udata1, st2) =>
            -- update the name offset in the entry
            some (herr_t.SUCCEED, { obj1 with name_off := udata1.ent.name_off }, m1, st2)

/-- The function `H5G_stab_remove`: removes `name` from the symbol table of
`grp_ent`. -/
def H5G_stab_remove (grp_ent : H5G_entry_t) (name : List Char) (st : σ) :
    Option (herr_t × σ) :=
  match grp_ent.file with
  | none => none  -- assert(grp_ent && grp_ent->file)
  | some file =>
    if name = [] then none  -- assert(name && *name)
    else
      -- initialize data to pass through B-tree
      match lib.H5O_read grp_ent st with
      | (none, st1) => some (herr_t.FAIL H5E_major_t.H5E_SYM H5E_minor_t.H5E_BADMESG, st1)
      | (some stab, st1) =>
        let udata : H5G_bt_ud1_t :=
          { operation := H5G_oper_t.H5G_OPER_REMOVE, name := some name,
            heap_addr := stab.heap_addr, ent := H5G_entry_zero }
        -- remove
        match lib.H5B_remove file stab.btree_addr udata st1 with
        | (none, st2) => some (herr_t.FAIL H5E_major_t.H5E_SYM H5E_minor_t.H5E_CANTINIT, st2)
        | (some _, st2) => some (herr_t.SUCCEED, st2)

/-- The function `H5G_stab_delete`: deletes the B-tree at `btree_addr`, then
the name heap at `heap_addr`. -/
def H5G_stab_delete (f : H5F_t) (btree_addr heap_addr : haddr_t) (st : σ) :
    Option (herr_t × σ) :=
  if !H5F_addr_defined btree_addr then none  -- assert(H5F_addr_defined(btree_addr))
  else if !H5F_addr_defined heap_addr then none  -- assert(H5F_addr_defined(heap_addr))
  else
    -- set up user data for B-tree deletion
    let udata : H5G_bt_ud1_t :=
      { operation := H5G_oper_t.H5G_OPER_REMOVE, name := none,
        heap_addr := heap_addr, ent := H5G_entry_zero }
    -- delete entire B-tree
    match lib.H5B_delete f btree_addr udata st with
    | (false, st1) =>
      some (herr_t.FAIL H5E_major_t.H5E_SYM H5E_minor_t.H5E_CANTDELETE, st1)
    | (true, st1) =>
      -- delete local heap for names
      match lib.H5HL_delete f heap_addr st1 with
      | (false, st2) =>
        some (herr_t.FAIL H5E_major_t.H5E_SYM H5E_minor_t.H5E_CANTDELETE, st2)
      | (true, st2) => some (herr_t.SUCCEED, st2)

end Manager

/-! ## Definitions used to state the properties -/

/-- The path of a child: the path of the parent, a separator unless the parent
path already ends in one, and the name of the child. -/
def join_path (parent name : List Char) : List Char :=
  if parent.getLast? = some '/' then parent ++ name else parent ++ '/' :: name

/-- The memory after `H5G_insert_name` has released the two paths of `obj`. -/
def release_paths (obj : H5G_entry_t) (m : Mem) : Option Mem :=
  (match obj.user_path_r with
    | some p => H5RS_decr p m
    | none => some m).bind fun m1 =>
  match obj.canon_path_r with
  | some p => H5RS_decr p m1
  | none => some m1

/-- One of the two path constructions of `H5G_insert_name`: the separator
test, the allocation and the copies. -/
def build_path (path_len : Nat) (loc_path name : List Char) (m : Mem) :
    Option (Option str_buf × Mem) :=
  (cstr_index loc_path (size_sub path_len 1)).bind fun c =>
    match H5FL_BLK_MALLOC
      (if '/' = c then size_add (size_add path_len (HDstrlen name)) 1
        else size_add (size_add (size_add path_len 1) (HDstrlen name)) 1) m with
    | (none, m3) => some (none, m3)
    | (some b0, m3) =>
      ((if '/' = c then HDstrcpy b0 loc_path
        else (HDstrcpy b0 loc_path).bind fun b => HDstrcat b ['/']).bind fun b1 =>
        HDstrcat b1 name).map fun b => (some b, m3)

/-- The reference count of the string at `p`; zero when there is none. -/
def H5RS_count (m : Mem) (p : Nat) : Nat :=
  match m.cell p with
  | some c => c.n
  | none => 0

/-- The number of path pointers of the entry `e` that point to `p`. -/
def path_refs (e : H5G_entry_t) (p : Nat) : Nat :=
  (if e.user_path_r = some p then 1 else 0) + (if e.canon_path_r = some p then 1 else 0)

/-! ## A model of the collaborators -/

/-- The value bound to `k` in an association list. -/
def assoc_get {κ α : Type} [DecidableEq κ] (k : κ) : List (κ × α) → Option α
  | [] => none
  | (k1, v) :: l => if k1 = k then some v else assoc_get k l

/-- The association list without the key `k`. -/
def assoc_del {κ α : Type} [DecidableEq κ] (k : κ) (l : List (κ × α)) : List (κ × α) :=
  l.filter fun e => decide (e.1 ≠ k)

/-- The association list with `k` bound to `v`. -/
def assoc_put {κ α : Type} [DecidableEq κ] (k : κ) (v : α) (l : List (κ × α)) :
    List (κ × α) :=
  (k, v) :: assoc_del k l

/-- Modelled from the spec: the persisted state of the containers, which the
name heap, the B-tree and the object header keep outside `H5Gstab.c`.  An
object is addressed by the container (`shared`) and its address.  A name heap
is its bytes; a B-tree is a map from names to records ("name-to-record map");
an object header holds the symbol table message or none. -/
structure Store where
  heaps : List ((Nat × haddr_t) × List Char)
  btrees : List ((Nat × haddr_t) × List (List Char × H5G_entry_t))
  headers : List ((Nat × haddr_t) × Option H5O_stab_t)
  next : haddr_t
  deriving DecidableEq

/-- Modelled from the spec: the collaborators of section 6, which are defined
outside `H5Gstab.c`.  The heap appends a string and returns its offset; the
B-tree stores the record handed to it under its name, after writing the name
to the heap and the offset to the record, and rejects a name that is present;
find and remove fail for a name that is absent; the whole-index delete needs
the heap; an operation on an object that does not exist fails. -/
def spec_lib : Lib Store where
  H5HL_SIZEOF_FREE := fun _ => 16
  H5F_SIZEOF_ADDR := fun _ => 8
  H5HL_create := fun f _ st =>
    (some st.next,
      { st with heaps := assoc_put (f.shared, st.next) [] st.heaps, next := st.next + 1 })
  H5HL_insert := fun f addr size bytes st =>
    match assoc_get (f.shared, addr) st.heaps with
    | none => (SIZE_MAX, st)
    | some data =>
      (data.length,
        { st with heaps :=
            assoc_put (f.shared, addr) (data ++ (bytes ++ [NUL]).take size) st.heaps })
  H5HL_delete := fun f addr st =>
    match assoc_get (f.shared, addr) st.heaps with
    | none => (false, st)
    | some _ => (true, { st with heaps := assoc_del (f.shared, addr) st.heaps })
  H5B_create := fun f st =>
    (some st.next,
      { st with btrees := assoc_put (f.shared, st.next) [] st.btrees, next := st.next + 1 })
  H5B_find := fun f addr udata st =>
    match assoc_get (f.shared, addr) st.btrees, udata.name with
    | some recs, some name =>
      match assoc_get name recs with
      | some ent => (some { udata with ent := ent }, st)
      | none => (none, st)
    | _, _ => (none, st)
  H5B_insert := fun f addr udata st =>
    match assoc_get (f.shared, addr) st.btrees,
      assoc_get (f.shared, udata.heap_addr) st.heaps, udata.name with
    | some recs, some data, some name =>
      match assoc_get name recs with
      | some _ => (none, st)
      | none =>
        (some { udata with ent := { udata.ent with name_off := data.length } },
          { st with
            heaps := assoc_put (f.shared, udata.heap_addr) (data ++ name ++ [NUL]) st.heaps
            btrees := assoc_put (f.shared, addr)
              ((name, { udata.ent with name_off := data.length }) :: recs) st.btrees })
    | _, _, _ => (none, st)
  H5B_remove := fun f addr udata st =>
    match assoc_get (f.shared, addr) st.btrees, udata.name with
    | some recs, some name =>
      match assoc_get name recs with
      | some _ =>
        (some udata,
          { st with btrees := assoc_put (f.shared, addr) (assoc_del name recs) st.btrees })
      | none => (none, st)
    | _, _ => (none, st)
  H5B_delete := fun f addr udata st =>
    match assoc_get (f.shared, addr) st.btrees,
      assoc_get (f.shared, udata.heap_addr) st.heaps with
    | some _, some _ => (true, { st with btrees := assoc_del (f.shared, addr) st.btrees })
    | _, _ => (false, st)
  H5O_create := fun f _ self st =>
    (true, { self with header := st.next, file := some f },
      { st with headers := assoc_put (f.shared, st.next) none st.headers,
                next := st.next + 1 })
  H5O_read := fun ent st =>
    match ent.file with
    | none => (none, st)
    | some f =>
      match assoc_get (f.shared, ent.header) st.headers with
      | some (some stab) => (some stab, st)
      | _ => (none, st)
  H5O_modify := fun ent stab st =>
    match ent.file with
    | none => (false, st)
    | some f =>
      match assoc_get (f.shared, ent.header) st.headers with
      | some _ =>
        (true, { st with headers := assoc_put (f.shared, ent.header) (some stab) st.headers })
      | none => (false, st)
  H5O_close := fun _ st => (true, st)

/-- The collaborators of `spec_lib` with a name heap that takes no string:
`H5HL_insert` returns `(size_t)(-1)`. -/
def full_heap_lib : Lib Store :=
  { spec_lib with H5HL_insert := fun _ _ _ _ st => (SIZE_MAX, st) }

/-- A call of a collaborator, with the arguments and the result that matter to
the order of creation and deletion. -/
inductive Event where
  | HL_create (addr : Option haddr_t)
  | HL_insert (addr : haddr_t) (offset : Nat)
  | HL_delete (addr : haddr_t) (ok : Bool)
  | B_create (addr : Option haddr_t)
  | B_find (addr : haddr_t) (udata : H5G_bt_ud1_t) (ok : Bool)
  | B_insert (addr : haddr_t) (udata : H5G_bt_ud1_t) (ok : Bool)
  | B_remove (addr : haddr_t) (udata : H5G_bt_ud1_t) (ok : Bool)
  | B_delete (addr : haddr_t) (udata : H5G_bt_ud1_t) (ok : Bool)
  | O_create (ok : Bool)
  | O_read (ok : Bool)
  | O_modify (stab : H5O_stab_t) (ok : Bool)
  | O_close
  deriving DecidableEq

/-- The collaborators `lib`, with every call appended to a log. -/
def logged {σ : Type} (lib : Lib σ) : Lib (σ × List Event) where
  H5HL_SIZEOF_FREE := lib.H5HL_SIZEOF_FREE
  H5F_SIZEOF_ADDR := lib.H5F_SIZEOF_ADDR
  H5HL_create := fun f size st =>
    ((lib.H5HL_create f size st.1).1,
      (lib.H5HL_create f size st.1).2,
      st.2 ++ [Event.HL_create (lib.H5HL_create f size st.1).1])
  H5HL_insert := fun f addr size bytes st =>
    ((lib.H5HL_insert f addr size bytes st.1).1,
      (lib.H5HL_insert f addr size bytes st.1).2,
      st.2 ++ [Event.HL_insert addr (lib.H5HL_insert f addr size bytes st.1).1])
  H5HL_delete := fun f addr st =>
    ((lib.H5HL_delete f addr st.1).1,
      (lib.H5HL_delete f addr st.1).2,
      st.2 ++ [Event.HL_delete addr (lib.H5HL_delete f addr st.1).1])
  H5B_create := fun f st =>
    ((lib.H5B_create f st.1).1,
      (lib.H5B_create f st.1).2,
      st.2 ++ [Event.B_create (lib.H5B_create f st.1).1])
  H5B_find := fun f addr udata st =>
    ((lib.H5B_find f addr udata st.1).1,
      (lib.H5B_find f addr udata st.1).2,
      st.2 ++ [Event.B_find addr udata (lib.H5B_find f addr udata st.1).1.isSome])
  H5B_insert := fun f addr udata st =>
    ((lib.H5B_insert f addr udata st.1).1,
      (lib.H5B_insert f addr udata st.1).2,
      st.2 ++ [Event.B_insert addr udata (lib.H5B_insert f addr udata st.1).1.isSome])
  H5B_remove := fun f addr udata st =>
    ((lib.H5B_remove f addr udata st.1).1,
      (lib.H5B_remove f addr udata st.1).2,
      st.2 ++ [Event.B_remove addr udata (lib.H5B_remove f addr udata st.1).1.isSome])
  H5B_delete := fun f addr udata st =>
    ((lib.H5B_delete f addr udata st.1).1,
      (lib.H5B_delete f addr udata st.1).2,
      st.2 ++ [Event.B_delete addr udata (lib.H5B_delete f addr udata st.1).1])
  H5O_create := fun f size self st =>
    ((lib.H5O_create f size self st.1).1,
      (lib.H5O_create f size self st.1).2.1,
      (lib.H5O_create f size self st.1).2.2,
      st.2 ++ [Event.O_create (lib.H5O_create f size self st.1).1])
  H5O_read := fun ent st =>
    ((lib.H5O_read ent st.1).1,
      (lib.H5O_read ent st.1).2,
      st.2 ++ [Event.O_read (lib.H5O_read ent st.1).1.isSome])
  H5O_modify := fun ent stab st =>
    ((lib.H5O_modify ent stab st.1).1,
      (lib.H5O_modify ent stab st.1).2,
      st.2 ++ [Event.O_modify stab (lib.H5O_modify ent stab st.1).1])
  H5O_close := fun ent st =>
    ((lib.H5O_close ent st.1).1, (lib.H5O_close ent st.1).2, st.2 ++ [Event.O_close])

/-- A container without any object. -/
def empty_store : Store := { heaps := [], btrees := [], headers := [], next := 0 }

/-- The file of container 7. -/
def file7 : H5F_t := { shared := 7 }

/-! ## Concrete entries and memories -/

/-- A location whose user path is the string 0 and whose canonical path is the
string 1. -/
def foo_loc : H5G_entry_t :=
  { H5G_entry_zero with file := some { shared := 7 }, header := 2, user_path_r := some 0,
                        canon_path_r := some 1 }

/-- A memory with the paths `/foo` and `/foo/` of `foo_loc` and two strings
`/old` and `/x` held by another entry. -/
def foo_mem : Mem :=
  { rs := [some { s := "/foo".toList, n := 1 }, some { s := "/foo/".toList, n := 1 },
           some { s := "/old".toList, n := 1 }, some { s := "/x".toList, n := 2 }],
    alloc := [] }

/-- An entry that holds the strings 2 and 3 as its paths. -/
def old_obj : H5G_entry_t :=
  { H5G_entry_zero with file := some { shared := 7 }, header := 96, name_off := 40,
                        user_path_r := some 2, canon_path_r := some 3, user_path_hidden := 1 }

/-- The component name `bar`. -/
def bar : List Char := "bar".toList

/-- An entry of another container. -/
def far_obj : H5G_entry_t := { old_obj with file := some { shared := 8 } }

/-- The symbol table message of the group in `dir_store`. -/
def dir_stab : H5O_stab_t := { btree_addr := 1, heap_addr := 0 }

/-- A container 7 with one group: its name heap at 0, its B-tree at 1 and its
object header at 2; the group has the one member `bar`, at the address 64. -/
def dir_store : Store :=
  { heaps := [((7, 0), [NUL] ++ bar ++ [NUL])]
    btrees := [((7, 1), [(bar, { H5G_entry_zero with file := some { shared := 7 },
                                                     header := 64, name_off := 1 })])]
    headers := [((7, 2), some dir_stab)]
    next := 3 }

/-- The entry `old_obj` after `H5G_insert_name foo_loc old_obj bar`. -/
def bar_obj : H5G_entry_t :=
  { old_obj with user_path_r := some 4, canon_path_r := some 5, user_path_hidden := 0 }

/-- The memory `foo_mem` after `H5G_insert_name foo_loc old_obj bar`. -/
def bar_mem : Mem :=
  { rs := [some { s := "/foo".toList, n := 1 }, some { s := "/foo/".toList, n := 1 },
           none, some { s := "/x".toList, n := 1 },
           some { s := "/foo/bar".toList, n := 1 }, some { s := "/foo/bar".toList, n := 1 }],
    alloc := [] }

/-- The entry `old_obj` after `H5G_insert_name foo_loc old_obj bar` when the
allocation of the canonical path fails. -/
def half_obj : H5G_entry_t :=
  { old_obj with user_path_r := some 4, canon_path_r := none, user_path_hidden := 0 }

/-- The memory after `H5G_insert_name foo_loc old_obj bar` when the allocation
of the canonical path fails. -/
def half_mem : Mem :=
  { rs := [some { s := "/foo".toList, n := 1 }, some { s := "/foo/".toList, n := 1 },
           none, some { s := "/x".toList, n := 1 },
           some { s := "/foo/bar".toList, n := 1 }],
    alloc := [] }

/-- The memory `foo_mem` after the paths of `old_obj` were released. -/
def free_mem : Mem :=
  { rs := [some { s := "/foo".toList, n := 1 }, some { s := "/foo/".toList, n := 1 },
           none, some { s := "/x".toList, n := 1 }],
    alloc := [] }

/-- The entry `old_obj` after its insert under the name `baz` into the group
of `dir_store`. -/
def baz_obj : H5G_entry_t :=
  { old_obj with user_path_r := some 4, canon_path_r := some 5, user_path_hidden := 0,
                 name_off := 5 }

/-- The memory after the insert of `old_obj` under the name `baz`. -/
def baz_mem : Mem :=
  { rs := [some { s := "/foo".toList, n := 1 }, some { s := "/foo/".toList, n := 1 },
           none, some { s := "/x".toList, n := 1 },
           some { s := "/foo/baz".toList, n := 1 }, some { s := "/foo/baz".toList, n := 1 }],
    alloc := [] }

/-- The container `dir_store` after the insert of `old_obj` under the name
`baz`. -/
def baz_store : Store :=
  { heaps := [((7, 0), [NUL] ++ bar ++ [NUL] ++ "baz".toList ++ [NUL])]
    btrees := [((7, 1),
      [("baz".toList, { H5G_entry_zero with file := some { shared := 7 }, header := 96,
                                            name_off := 5 }),
       (bar, { H5G_entry_zero with file := some { shared := 7 }, header := 64,
                                   name_off := 1 })])]
    headers := [((7, 2), some dir_stab)]
    next := 3 }

/-! ## Lemmas on the path-cache maintainer -/

theorem H5G_insert_name_unfold (loc obj : H5G_entry_t) (name : List Char) (m : Mem)
    (lc : Nat) (hc : loc.canon_path_r = some lc) :
    H5G_insert_name loc obj name m =
      (release_paths obj m).bind fun m2 =>
      (H5RS_len loc.user_path_r m2).bind fun ul =>
      (H5RS_len (some lc) m2).bind fun cl =>
      (H5RS_get_str loc.user_path_r m2).bind fun up =>
      (build_path ul up name m2).bind fun r =>
      match r with
      | (none, m3) =>
        some (herr_t.FAIL H5E_major_t.H5E_RESOURCE H5E_minor_t.H5E_NOSPACE,
          { obj with user_path_r := none, canon_path_r := none, user_path_hidden := 0 }, m3)
      | (some b, m3) =>
        (H5RS_get_str (some lc) (H5RS_own b m3).2).bind fun cp =>
        (build_path cl cp name (H5RS_own b m3).2).bind fun r2 =>
        match r2 with
        | (none, m5) =>
          some (herr_t.FAIL H5E_major_t.H5E_RESOURCE H5E_minor_t.H5E_NOSPACE,
            { obj with user_path_r := some (H5RS_own b m3).1, canon_path_r := none,
                       user_path_hidden := 0 }, m5)
        | (some b2, m5) =>
          some (herr_t.SUCCEED,
            { obj with user_path_r := some (H5RS_own b m3).1,
                       canon_path_r := some (H5RS_own b2 m5).1,
                       user_path_hidden := 0 }, (H5RS_own b2 m5).2) := by
  unfold H5G_insert_name release_paths build_path
  simp only [hc, Option.bind_eq_bind]
  cases (match obj.user_path_r with | some p => H5RS_decr p m | none => some m) with
  | none => rfl
  | some m1 =>
    repeat rw [Option.some_bind]
    cases (match obj.canon_path_r with | some p => H5RS_decr p m1 | none => some m1) with
    | none => rfl
    | some m2 =>
      repeat rw [Option.some_bind]
      cases H5RS_len loc.user_path_r m2 with
      | none => rfl
      | some ul =>
        cases H5RS_len (some lc) m2 with
        | none => rfl
        | some cl =>
          cases H5RS_get_str loc.user_path_r m2 with
          | none => rfl
          | some up =>
            repeat rw [Option.some_bind]
            cases cstr_index up (size_sub ul 1) with
            | none => rfl
            | some c =>
              repeat rw [Option.some_bind]
              rcases H5FL_BLK_MALLOC
                (if '/' = c then size_add (size_add ul (HDstrlen name)) 1
                  else size_add (size_add (size_add ul 1) (HDstrlen name)) 1) m2 with ⟨_ | b0, m3⟩
              · rfl
              · simp only []
                cases (if '/' = c then HDstrcpy b0 up
                  else (HDstrcpy b0 up).bind fun b => HDstrcat b ['/']) with
                | none => rfl
                | some b1 =>
                  repeat rw [Option.some_bind]
                  cases HDstrcat b1 name with
                  | none => rfl
                  | some b =>
                    (repeat rw [Option.some_bind]); rw [Option.map_some']; (repeat rw [Option.some_bind]); dsimp only
                    cases H5RS_get_str (some lc) (H5RS_own b m3).2 with
                    | none => rfl
                    | some cp =>
                      repeat rw [Option.some_bind]
                      cases cstr_index cp (size_sub cl 1) with
                      | none => rfl
                      | some c2 =>
                        repeat rw [Option.some_bind]
                        rcases H5FL_BLK_MALLOC
                          (if '/' = c2 then size_add (size_add cl (HDstrlen name)) 1
                            else size_add (size_add (size_add cl 1) (HDstrlen name)) 1)
                          (H5RS_own b m3).2 with ⟨_ | c0, m5⟩
                        · rfl
                        · simp only []
                          cases (if '/' = c2 then HDstrcpy c0 cp
                            else (HDstrcpy c0 cp).bind fun b => HDstrcat b ['/']) with
                          | none => rfl
                          | some c1 =>
                            repeat rw [Option.some_bind]
                            cases HDstrcat c1 name with
                            | none => rfl
                            | some b2 => rfl

/-- The modulus of `size_t` as a numeral. -/
theorem SIZE_MOD_eq : SIZE_MOD = 18446744073709551616 := by
  unfold SIZE_MOD; norm_num

/-- The read at `strlen - 1` of a string that is not empty and fits in a
`size_t` returns its last character. -/
theorem cstr_index_last (p : List Char) (hp : p ≠ []) (hlen : p.length < SIZE_MOD) :
    cstr_index p (size_sub (HDstrlen p) 1) = p.getLast? := by
  have h1 : 0 < p.length := List.length_pos.mpr hp
  have h2 : size_sub (HDstrlen p) 1 = p.length - 1 := by
    unfold size_sub HDstrlen
    rw [SIZE_MOD_eq] at *
    omega
  rw [h2, cstr_index, if_pos (by omega), List.getLast?_eq_getElem?, List.get?_eq_getElem?]

/-- The read at `strlen - 1` of the empty string is at the index `SIZE_MAX`,
outside the string. -/
theorem cstr_index_nil : cstr_index [] (size_sub (HDstrlen []) 1) = none := by
  decide

/-- The read at `strlen - 1` of a string that is not empty is inside the string. -/
theorem cstr_index_isSome (p : List Char) (hp : p ≠ []) :
    (cstr_index p (size_sub (HDstrlen p) 1)).isSome = true := by
  have h1 : 0 < p.length := List.length_pos.mpr hp
  have h2 : size_sub (HDstrlen p) 1 < p.length := by
    unfold size_sub HDstrlen
    rw [SIZE_MOD_eq] at *
    omega
  rw [cstr_index, if_pos h2, List.get?_eq_getElem?, List.getElem?_eq_getElem h2]
  rfl

/-- The length of a joined path. -/
theorem join_path_length (p name : List Char) :
    (join_path p name).length =
      if p.getLast? = some '/' then p.length + name.length else p.length + name.length + 1 := by
  unfold join_path
  split <;> simp
  omega

/-- The allocation fails exactly when the next outcome is `false`, and it
consumes that outcome. -/
theorem H5FL_BLK_MALLOC_eq (size : Nat) (m : Mem) :
    H5FL_BLK_MALLOC size m =
      (if m.alloc.head? = some false then none else some { cap := size, data := [] },
        { m with alloc := m.alloc.tail }) := by
  unfold H5FL_BLK_MALLOC
  rcases m with ⟨rs, alloc⟩
  rcases alloc with _ | ⟨b, rest⟩
  · simp
  · cases b <;> simp

/-- One path construction, in closed form: undefined on an empty location path,
null when the allocation fails, the joined path when it fits in a `size_t`, and
undefined (a write past the block) when it does not. -/
theorem build_path_eq (p name : List Char) (m : Mem) :
    build_path (HDstrlen p) p name m =
      if p = [] then none
      else if m.alloc.head? = some false then some (none, { m with alloc := m.alloc.tail })
      else if (join_path p name).length + 1 < SIZE_MOD then
        some (some { cap := (join_path p name).length + 1, data := join_path p name },
          { m with alloc := m.alloc.tail })
      else none := by
  by_cases hp : p = []
  · subst hp
    simp [build_path, cstr_index_nil]
  · rw [if_neg hp]
    unfold build_path
    have h1 : 0 < p.length := List.length_pos.mpr hp
    by_cases hlen : p.length < SIZE_MOD
    · rw [cstr_index_last p hp hlen]
      obtain ⟨c, hc⟩ : ∃ c, p.getLast? = some c := by
        cases h : p.getLast? with
        | none => simp [List.getLast?_eq_none_iff] at h; exact absurd h hp
        | some c => exact ⟨c, rfl⟩
      rw [hc, Option.some_bind, H5FL_BLK_MALLOC_eq]
      by_cases ha : m.alloc.head? = some false
      · simp [ha]
      · simp only [ha, if_false]
        rw [join_path_length, hc]
        unfold HDstrcpy HDstrcat size_add HDstrlen join_path
        rw [hc]
        rw [SIZE_MOD_eq] at *
        by_cases hs : '/' = c
        · subst hs
          simp only [if_true]
          generalize hcap : ((p.length % 18446744073709551616 + name.length % 18446744073709551616)
            % 18446744073709551616 + 1) % 18446744073709551616 = cap
          by_cases hfit : p.length + name.length + 1 < 18446744073709551616
          · have hc2 : cap = p.length + name.length + 1 := by omega
            subst hc2
            simp [hfit]
          · have hc2 : cap < 18446744073709551616 := by omega
            rw [if_neg hfit]
            by_cases h3 : p.length + 1 ≤ cap
            · simp [h3]; omega
            · simp [h3]
        · have hs2 : ¬ (some c = some '/') := by
            intro h; exact hs (Option.some.inj h).symm
          simp only [hs, hs2, if_false]
          generalize hcap : (((p.length % 18446744073709551616 + 1) % 18446744073709551616 +
            name.length % 18446744073709551616) % 18446744073709551616 + 1)
              % 18446744073709551616 = cap
          by_cases hfit : p.length + name.length + 1 + 1 < 18446744073709551616
          · have hc2 : cap = p.length + name.length + 1 + 1 := by omega
            subst hc2
            simp (disch := omega) [hfit, if_pos, List.length_append]
          · have hc2 : cap < 18446744073709551616 := by omega
            rw [if_neg hfit]
            by_cases h3 : p.length + 1 ≤ cap
            · simp [h3]
              omega
            · simp [h3]
    · have hsome := cstr_index_isSome p hp
      obtain ⟨c, hc⟩ := Option.isSome_iff_exists.mp hsome
      rw [hc, Option.some_bind, H5FL_BLK_MALLOC_eq]
      have hj : ¬ ((join_path p name).length + 1 < SIZE_MOD) := by
        rw [join_path_length]
        split <;> omega
      rw [if_neg hj]
      by_cases ha : m.alloc.head? = some false
      · simp [ha]
      · simp only [ha, if_false]
        unfold HDstrcpy HDstrcat size_add
        have hm : ∀ x : Nat, x % SIZE_MOD < SIZE_MOD := fun x =>
          Nat.mod_lt _ (by rw [SIZE_MOD_eq]; norm_num)
        by_cases hs : '/' = c
        · simp only [hs, if_true]
          have := hm (size_add (HDstrlen p) (HDstrlen name) + 1)
          unfold size_add at this
          rw [if_neg (by omega)]
          rfl
        · simp only [hs, if_false]
          have := hm ((size_add (HDstrlen p) 1 + HDstrlen name) % SIZE_MOD + 1)
          unfold size_add at this
          rw [if_neg (by omega)]
          rfl

/-- The strings after one of them was replaced. -/
theorem cell_set (m : Mem) (p q : Nat) (v : Option H5RS_str_t) (c : H5RS_str_t)
    (hp : m.cell p = some c) :
    Mem.cell { m with rs := m.rs.set p v } q = if q = p then v else m.cell q := by
  unfold Mem.cell at *
  simp only [List.get?_eq_getElem?] at *
  rw [List.getElem?_set]
  by_cases h : p = q
  · subst h
    have hlt : p < m.rs.length := by
      by_contra hge
      rw [List.getElem?_eq_none (by omega)] at hp
      simp at hp
    simp [hlt]
  · have h2 : ¬ q = p := fun e => h e.symm
    simp [h, h2]

/-- The strings after a decrement. -/
theorem H5RS_decr_cell (p q : Nat) (m m1 : Mem) (h : H5RS_decr p m = some m1) :
    ∃ c, m.cell p = some c ∧ m1.alloc = m.alloc ∧ m1.rs.length = m.rs.length ∧
      m1.cell q = if q = p then (if c.n ≤ 1 then none else some { c with n := c.n - 1 })
        else m.cell q := by
  unfold H5RS_decr at h
  cases hc : m.cell p with
  | none => rw [hc] at h; simp at h
  | some c =>
    rw [hc] at h
    simp only at h
    refine ⟨c, rfl, ?_⟩
    by_cases h0 : c.n = 0
    · rw [if_pos h0] at h
      simp at h
    · rw [if_neg h0] at h
      by_cases hn : c.n = 1
      · rw [if_pos hn, Option.some.injEq] at h
        subst h
        refine ⟨rfl, by simp, ?_⟩
        rw [cell_set m p q none c hc, if_pos (show c.n ≤ 1 by omega)]
      · rw [if_neg hn, Option.some.injEq] at h
        subst h
        refine ⟨rfl, by simp, ?_⟩
        rw [cell_set m p q _ c hc, if_neg (show ¬ c.n ≤ 1 by omega)]

/-- A string that is live after a decrement was live before, with the same text. -/
theorem H5RS_decr_text (p q : Nat) (m m1 : Mem) (c1 : H5RS_str_t)
    (h : H5RS_decr p m = some m1) (hq : m1.cell q = some c1) :
    ∃ c, m.cell q = some c ∧ c.s = c1.s := by
  obtain ⟨c, hc, -, -, hcell⟩ := H5RS_decr_cell p q m m1 h
  rw [hcell] at hq
  by_cases hqp : q = p
  · subst hqp
    rw [if_pos rfl] at hq
    by_cases hn : c.n ≤ 1
    · simp [hn] at hq
    · simp only [hn, if_false, Option.some.injEq] at hq
      exact ⟨c, hc, by rw [← hq]⟩
  · rw [if_neg hqp] at hq
    exact ⟨c1, hq, rfl⟩

/-- A decrement lowers the count of its string by one and no other count. -/
theorem H5RS_decr_count (p q : Nat) (m m1 : Mem) (h : H5RS_decr p m = some m1) :
    H5RS_count m1 q = H5RS_count m q - (if q = p then 1 else 0) := by
  obtain ⟨c, hc, -, -, hcell⟩ := H5RS_decr_cell p q m m1 h
  unfold H5RS_count
  rw [hcell]
  by_cases hqp : q = p
  · subst hqp
    rw [hc]
    by_cases hn : c.n ≤ 1
    · simp [hn]
    · simp [hn]
  · simp [hqp]

/-- A string with a positive count can be decremented. -/
theorem H5RS_decr_some (p : Nat) (m : Mem) (h : 1 ≤ H5RS_count m p) :
    ∃ m1, H5RS_decr p m = some m1 := by
  unfold H5RS_count at h
  unfold H5RS_decr
  cases hc : m.cell p with
  | none => rw [hc] at h; simp at h
  | some c =>
    rw [hc] at h
    simp only at h
    simp only
    rw [if_neg (by omega)]
    split <;> exact ⟨_, rfl⟩

/-- A string with a positive count is live. -/
theorem cell_of_count (m : Mem) (p : Nat) (h : 1 ≤ H5RS_count m p) :
    ∃ c, m.cell p = some c := by
  unfold H5RS_count at h
  cases hc : m.cell p with
  | none => rw [hc] at h; simp at h
  | some c => exact ⟨c, rfl⟩

/-- A live string is not changed by `H5RS_own`. -/
theorem H5RS_own_cell (b : str_buf) (m : Mem) (q : Nat) (c : H5RS_str_t)
    (h : m.cell q = some c) : (H5RS_own b m).2.cell q = some c := by
  unfold H5RS_own Mem.cell at *
  simp only [List.get?_eq_getElem?] at *
  have hlt : q < m.rs.length := by
    by_contra hge
    rw [List.getElem?_eq_none (by omega)] at h
    simp at h
  rw [List.getElem?_append_left hlt]
  exact h

/-- The string made by `H5RS_own` holds the buffer, with count one. -/
theorem H5RS_own_new (b : str_buf) (m : Mem) :
    (H5RS_own b m).2.cell (H5RS_own b m).1 = some { s := b.data, n := 1 } := by
  unfold H5RS_own Mem.cell
  simp

/-- An entry without paths has nothing to release. -/
theorem release_paths_none (obj : H5G_entry_t) (m : Mem)
    (hu : obj.user_path_r = none) (hc : obj.canon_path_r = none) :
    release_paths obj m = some m := by
  unfold release_paths
  rw [hu, hc]
  rfl

/-- The release of the paths of an entry keeps the allocation outcomes and the
text of every string that is still live. -/
theorem release_paths_inv (obj : H5G_entry_t) (m m2 : Mem)
    (h : release_paths obj m = some m2) :
    m2.alloc = m.alloc ∧ m2.rs.length = m.rs.length ∧
      ∀ q c2, m2.cell q = some c2 → ∃ c, m.cell q = some c ∧ c.s = c2.s := by
  unfold release_paths at h
  rw [Option.bind_eq_some] at h
  obtain ⟨m1, h1, h2⟩ := h
  have s1 : m1.alloc = m.alloc ∧ m1.rs.length = m.rs.length ∧
      ∀ q c2, m1.cell q = some c2 → ∃ c, m.cell q = some c ∧ c.s = c2.s := by
    cases hu : obj.user_path_r with
    | none =>
      rw [hu] at h1
      simp only [Option.some.injEq] at h1
      subst h1
      exact ⟨rfl, rfl, fun q c2 hq => ⟨c2, hq, rfl⟩⟩
    | some p =>
      rw [hu] at h1
      simp only at h1
      obtain ⟨c, -, ha, hl, -⟩ := H5RS_decr_cell p 0 m m1 h1
      exact ⟨ha, hl, fun q c2 hq => H5RS_decr_text p q m m1 c2 h1 hq⟩
  obtain ⟨a1, l1, t1⟩ := s1
  cases hc : obj.canon_path_r with
  | none =>
    rw [hc] at h2
    simp only [Option.some.injEq] at h2
    subst h2
    exact ⟨a1, l1, t1⟩
  | some p =>
    rw [hc] at h2
    simp only at h2
    obtain ⟨c, -, ha, hl, -⟩ := H5RS_decr_cell p 0 m1 m2 h2
    refine ⟨ha.trans a1, hl.trans l1, fun q c2 hq => ?_⟩
    obtain ⟨c3, h3, e3⟩ := H5RS_decr_text p q m1 m2 c2 h2 hq
    obtain ⟨c4, h4, e4⟩ := t1 q c3 h3
    exact ⟨c4, h4, e4.trans e3⟩

/-- When the strings are counted at least as often as the entry points to them,
its paths can be released, and each count drops by the number of pointers. -/
theorem release_paths_ok (obj : H5G_entry_t) (m : Mem)
    (h : ∀ p, path_refs obj p ≤ H5RS_count m p) :
    ∃ m2, release_paths obj m = some m2 ∧
      ∀ q, H5RS_count m2 q = H5RS_count m q - path_refs obj q := by
  unfold release_paths
  have s1 : ∃ m1, (match obj.user_path_r with
      | some p => H5RS_decr p m
      | none => some m) = some m1 ∧
      ∀ q, H5RS_count m1 q = H5RS_count m q - (if obj.user_path_r = some q then 1 else 0) := by
    cases hu : obj.user_path_r with
    | none => exact ⟨m, rfl, fun q => by simp⟩
    | some p =>
      have hp := h p
      unfold path_refs at hp
      rw [hu] at hp
      simp only [if_true] at hp
      obtain ⟨m1, h1⟩ := H5RS_decr_some p m (by omega)
      refine ⟨m1, h1, fun q => ?_⟩
      rw [H5RS_decr_count p q m m1 h1]
      by_cases hqp : q = p
      · subst hqp; simp
      · have : ¬ p = q := fun e => hqp e.symm
        simp [hqp, this]
  obtain ⟨m1, h1, c1⟩ := s1
  rw [h1, Option.some_bind]
  cases hc : obj.canon_path_r with
  | none =>
    refine ⟨m1, rfl, fun q => ?_⟩
    rw [c1 q]
    unfold path_refs
    rw [hc]
    simp
  | some p =>
    have hp := h p
    unfold path_refs at hp
    rw [hc] at hp
    simp only [if_true] at hp
    have hp1 := c1 p
    obtain ⟨m2, h2⟩ := H5RS_decr_some p m1 (by split at hp1 <;> split at hp <;> omega)
    refine ⟨m2, h2, fun q => ?_⟩
    rw [H5RS_decr_count p q m1 m2 h2, c1 q]
    unfold path_refs
    rw [hc]
    by_cases hqp : q = p
    · subst hqp; simp; omega
    · have : ¬ p = q := fun e => hqp e.symm
      simp [hqp, this]

/-- When `H5G_insert_name` returns on a location with a canonical path, the
location has a user path too, the old paths were released, and both strings of
the location were live then. -/
theorem H5G_insert_name_inv (loc obj : H5G_entry_t) (name : List Char) (m : Mem) (lc : Nat)
    (r : herr_t × H5G_entry_t × Mem)
    (hc : loc.canon_path_r = some lc) (h : H5G_insert_name loc obj name m = some r) :
    ∃ lu m2 cu cc, loc.user_path_r = some lu ∧ release_paths obj m = some m2 ∧
      m2.cell lu = some cu ∧ m2.cell lc = some cc := by
  rw [H5G_insert_name_unfold loc obj name m lc hc] at h
  rw [Option.bind_eq_some] at h
  obtain ⟨m2, hrel, h⟩ := h
  rw [Option.bind_eq_some] at h
  obtain ⟨ul, hul, h⟩ := h
  rw [Option.bind_eq_some] at h
  obtain ⟨cl, hcl, -⟩ := h
  cases hu : loc.user_path_r with
  | none => rw [hu] at hul; simp [H5RS_len] at hul
  | some lu =>
    rw [hu] at hul
    simp only [H5RS_len, Option.map_eq_some'] at hul hcl
    obtain ⟨cu, hcu, -⟩ := hul
    obtain ⟨cc, hcc, -⟩ := hcl
    exact ⟨lu, m2, cu, cc, rfl, hrel, hcu, hcc⟩

/-- The result of `H5G_insert_name` on a location with two live paths, in closed
form. -/
theorem H5G_insert_name_eq (loc obj : H5G_entry_t) (name : List Char) (m m2 : Mem)
    (lc lu : Nat) (cu cc : H5RS_str_t)
    (hc : loc.canon_path_r = some lc) (hu : loc.user_path_r = some lu)
    (hrel : release_paths obj m = some m2)
    (hcu : m2.cell lu = some cu) (hcc : m2.cell lc = some cc) :
    H5G_insert_name loc obj name m =
      if cu.s = [] then none
      else if m2.alloc.head? = some false then
        some (herr_t.FAIL H5E_major_t.H5E_RESOURCE H5E_minor_t.H5E_NOSPACE,
          { obj with user_path_r := none, canon_path_r := none, user_path_hidden := 0 },
          { m2 with alloc := m2.alloc.tail })
      else if ¬ ((join_path cu.s name).length + 1 < SIZE_MOD) then none
      else if cc.s = [] then none
      else if m2.alloc.tail.head? = some false then
        some (herr_t.FAIL H5E_major_t.H5E_RESOURCE H5E_minor_t.H5E_NOSPACE,
          { obj with user_path_r := some m2.rs.length, canon_path_r := none,
                     user_path_hidden := 0 },
          { rs := m2.rs ++ [some { s := join_path cu.s name, n := 1 }],
            alloc := m2.alloc.tail.tail })
      else if ¬ ((join_path cc.s name).length + 1 < SIZE_MOD) then none
      else
        some (herr_t.SUCCEED,
          { obj with user_path_r := some m2.rs.length,
                     canon_path_r := some (m2.rs.length + 1), user_path_hidden := 0 },
          { rs := m2.rs ++ [some { s := join_path cu.s name, n := 1 }]
              ++ [some { s := join_path cc.s name, n := 1 }],
            alloc := m2.alloc.tail.tail }) := by
  rw [H5G_insert_name_unfold loc obj name m lc hc, hrel, Option.some_bind]
  have hul : H5RS_len loc.user_path_r m2 = some (HDstrlen cu.s) := by
    rw [hu]; simp [H5RS_len, hcu]
  have hcl : H5RS_len (some lc) m2 = some (HDstrlen cc.s) := by
    simp [H5RS_len, hcc]
  have hup : H5RS_get_str loc.user_path_r m2 = some cu.s := by
    rw [hu]; simp [H5RS_get_str, hcu]
  rw [hul, Option.some_bind, hcl, Option.some_bind, hup, Option.some_bind, build_path_eq]
  by_cases h1 : cu.s = []
  · rw [if_pos h1, if_pos h1]; rfl
  · rw [if_neg h1, if_neg h1]
    by_cases h2 : m2.alloc.head? = some false
    · rw [if_pos h2, if_pos h2]; rfl
    · rw [if_neg h2, if_neg h2]
      by_cases h3 : (join_path cu.s name).length + 1 < SIZE_MOD
      · rw [if_pos h3, if_neg (not_not.mpr h3), Option.some_bind]
        dsimp only
        have hcp : ∀ (b : str_buf) (m3 : Mem), m3.cell lc = some cc →
            H5RS_get_str (some lc) (H5RS_own b m3).2 = some cc.s := by
          intro b m3 h3
          simp [H5RS_get_str, H5RS_own_cell b m3 lc cc h3]
        have hcc3 : Mem.cell { m2 with alloc := m2.alloc.tail } lc = some cc := hcc
        rw [hcp _ _ hcc3, Option.some_bind, build_path_eq]
        dsimp only [H5RS_own]
        by_cases h4 : cc.s = []
        · rw [if_pos h4, if_pos h4]; rfl
        · rw [if_neg h4, if_neg h4]
          by_cases h5 : m2.alloc.tail.head? = some false
          · rw [if_pos h5, if_pos h5]; rfl
          · rw [if_neg h5, if_neg h5]
            by_cases h6 : (join_path cc.s name).length + 1 < SIZE_MOD
            · rw [if_pos h6, if_neg (not_not.mpr h6), Option.some_bind]
              dsimp only
              rw [List.length_append, List.length_singleton]
            · rw [if_neg h6, if_pos h6]; rfl
      · rw [if_neg h3, if_pos h3]; rfl

/-- Without a canonical path on the location `H5G_insert_name` does nothing. -/
theorem H5G_insert_name_no_canon (loc obj : H5G_entry_t) (name : List Char)
    (m : Mem) (h : loc.canon_path_r = none) :
    H5G_insert_name loc obj name m = some (herr_t.SUCCEED, obj, m) := by
  unfold H5G_insert_name
  rw [h]

/-! ## The path-cache maintainer -/

/-- C4: when the location has no canonical path cached, `H5G_insert_name`
returns success and changes nothing: the target entry (its user path, its
canonical path and its hidden flag) and the memory, hence every reference
count, are what they were. -/
theorem insert_name_without_canon_path (loc obj : H5G_entry_t) (name : List Char) (m : Mem)
    (h : loc.canon_path_r = none) :
    H5G_insert_name loc obj name m = some (herr_t.SUCCEED, obj, m) := by
  unfold H5G_insert_name
  rw [h]

/-- Witness of C4: a location with a user path but no canonical path leaves an
entry that holds two paths untouched. -/
theorem insert_name_without_canon_path_witness :
    H5G_insert_name { foo_loc with canon_path_r := none } old_obj bar foo_mem
      = some (herr_t.SUCCEED, old_obj, foo_mem) :=
  insert_name_without_canon_path { foo_loc with canon_path_r := none } old_obj bar foo_mem rfl

/-- The text a path pointer had before the paths of `obj` were released, given
the text it has afterwards. -/
theorem release_paths_text (obj : H5G_entry_t) (m m2 : Mem) (p : Nat) (c2 : H5RS_str_t)
    (t : List Char) (hrel : release_paths obj m = some m2) (hc2 : m2.cell p = some c2)
    (ht : H5RS_get_str (some p) m = some t) : c2.s = t := by
  obtain ⟨-, -, htext⟩ := release_paths_inv obj m m2 hrel
  obtain ⟨c, hc, hs⟩ := htext p c2 hc2
  simp only [H5RS_get_str, hc, Option.map_some', Option.some.injEq] at ht
  rw [← hs, ht]

/-- The strings appended by the two `H5RS_own` calls of `H5G_insert_name`. -/
theorem cell_append_two (l : List (Option H5RS_str_t)) (a b : Option H5RS_str_t)
    (al : List Bool) :
    Mem.cell { rs := l ++ [a] ++ [b], alloc := al } l.length = a ∧
      Mem.cell { rs := l ++ [a] ++ [b], alloc := al } (l.length + 1) = b := by
  unfold Mem.cell
  simp only [List.get?_eq_getElem?, List.append_assoc, List.singleton_append]
  constructor
  · rw [List.getElem?_append_right (le_refl _)]
    simp
  · rw [List.getElem?_append_right (by omega)]
    simp

/-- A string that is live stays where it is when strings are appended. -/
theorem cell_append_old (l r : List (Option H5RS_str_t)) (al al2 : List Bool) (q : Nat)
    (c : H5RS_str_t) (h : Mem.cell { rs := l, alloc := al } q = some c) :
    Mem.cell { rs := l ++ r, alloc := al2 } q = some c := by
  unfold Mem.cell at *
  simp only [List.get?_eq_getElem?] at *
  have hlt : q < l.length := by
    by_contra hge
    rw [List.getElem?_eq_none (by omega)] at h
    simp at h
  rw [List.getElem?_append_left hlt]
  exact h

/-- The entry and the memory `H5G_insert_name` returns when it succeeds on a
location with a canonical path: the old paths are released and the two new
strings are appended. -/
theorem H5G_insert_name_success (loc obj obj1 : H5G_entry_t) (name : List Char)
    (m m1 : Mem) (lc : Nat) (hlc : loc.canon_path_r = some lc)
    (h : H5G_insert_name loc obj name m = some (herr_t.SUCCEED, obj1, m1)) :
    ∃ lu m2 cu cc, loc.user_path_r = some lu ∧ release_paths obj m = some m2 ∧
      m2.cell lu = some cu ∧ m2.cell lc = some cc ∧
      obj1 = { obj with user_path_r := some m2.rs.length,
                        canon_path_r := some (m2.rs.length + 1), user_path_hidden := 0 } ∧
      m1 = { rs := m2.rs ++ [some { s := join_path cu.s name, n := 1 }]
                ++ [some { s := join_path cc.s name, n := 1 }],
             alloc := m2.alloc.tail.tail } := by
  obtain ⟨lu, m2, cu, cc, hlu, hrel, hcu, hcc⟩ := H5G_insert_name_inv loc obj name m lc _ hlc h
  rw [H5G_insert_name_eq loc obj name m m2 lc lu cu cc hlc hlu hrel hcu hcc] at h
  split_ifs at h
  all_goals first | (simp at h; done) | skip
  simp only [Option.some.injEq, Prod.mk.injEq, true_and] at h
  exact ⟨lu, m2, cu, cc, hlu, hrel, hcu, hcc, h.1.symm, h.2.symm⟩

/-- C2: after a successful `H5G_insert_name` on a location whose two paths are
cached, the user path of the target is the user path of the location followed
by the name, and its canonical path is the canonical path of the location
followed by the name, each with one `/` in between exactly when its own
location path does not already end in `/` (`join_path`). -/
theorem insert_name_composes_paths (loc obj obj1 : H5G_entry_t) (name up cp : List Char)
    (m m1 : Mem)
    (hu : H5RS_get_str loc.user_path_r m = some up)
    (hc : H5RS_get_str loc.canon_path_r m = some cp)
    (h : H5G_insert_name loc obj name m = some (herr_t.SUCCEED, obj1, m1)) :
    H5RS_get_str obj1.user_path_r m1 = some (join_path up name) ∧
      H5RS_get_str obj1.canon_path_r m1 = some (join_path cp name) := by
  cases hlc : loc.canon_path_r with
  | none => rw [hlc] at hc; simp [H5RS_get_str] at hc
  | some lc =>
    obtain ⟨lu, m2, cu, cc, hlu, hrel, hcu, hcc, ho, hm⟩ :=
      H5G_insert_name_success loc obj obj1 name m m1 lc hlc h
    rw [hlu] at hu
    rw [hlc] at hc
    -- the text of the location paths is the one they had before the release
    have eu : cu.s = up := release_paths_text obj m m2 lu cu up hrel hcu hu
    have ec : cc.s = cp := release_paths_text obj m m2 lc cc cp hrel hcc hc
    subst ho hm eu ec
    have hnew := cell_append_two m2.rs (some { s := join_path cu.s name, n := 1 })
      (some { s := join_path cc.s name, n := 1 }) m2.alloc.tail.tail
    constructor
    · simp only [H5RS_get_str, hnew.1, Option.map_some']
    · simp only [H5RS_get_str, hnew.2, Option.map_some']

/-- Witness of C2: `/foo` and `bar` give `/foo/bar`, and so do `/foo/` and
`bar`. -/
theorem insert_name_composes_paths_witness :
    H5G_insert_name foo_loc old_obj bar foo_mem = some (herr_t.SUCCEED, bar_obj, bar_mem) ∧
    H5RS_get_str foo_loc.user_path_r foo_mem = some "/foo".toList ∧
    H5RS_get_str foo_loc.canon_path_r foo_mem = some "/foo/".toList ∧
    H5RS_get_str bar_obj.user_path_r bar_mem = some "/foo/bar".toList ∧
    H5RS_get_str bar_obj.canon_path_r bar_mem = some "/foo/bar".toList :=
  ⟨by decide, by decide, by decide,
    insert_name_composes_paths foo_loc old_obj bar_obj bar "/foo".toList "/foo/".toList
      foo_mem bar_mem (by decide) (by decide) (by decide)⟩

/-- The path pointers of a location whose strings are counted stay live, with
their text, when the paths of `obj` are released. -/
theorem release_paths_keeps (loc obj : H5G_entry_t) (m : Mem) (p : Nat) (t : List Char)
    (hrefs : ∀ q, path_refs loc q + path_refs obj q ≤ H5RS_count m q)
    (hp : 1 ≤ path_refs loc p) (ht : H5RS_get_str (some p) m = some t) :
    ∃ m2, release_paths obj m = some m2 ∧ ∃ c, m2.cell p = some c ∧ c.s = t := by
  obtain ⟨m2, hrel, hcount⟩ := release_paths_ok obj m (fun q => by have := hrefs q; omega)
  have h1 : 1 ≤ H5RS_count m2 p := by
    rw [hcount p]
    have := hrefs p
    omega
  obtain ⟨c, hc⟩ := cell_of_count m2 p h1
  exact ⟨m2, hrel, c, hc, release_paths_text obj m m2 p c t hrel hc ht⟩

/-- C10: on a location whose user path and canonical path are cached and of
length at least 1, the two reads `loc_user_path[user_path_len-1]` and
`loc_canon_path[canon_path_len-1]` of `H5G_insert_name` are inside the strings.
When moreover every string is counted at least as often as `loc` and `obj`
point to it, the two new paths with their terminators fit in a `size_t`, and
the two allocations do not fail, the call returns success. -/
theorem insert_name_reads_in_bounds (loc obj : H5G_entry_t) (name up cp : List Char) (m : Mem)
    (hu : H5RS_get_str loc.user_path_r m = some up)
    (hc : H5RS_get_str loc.canon_path_r m = some cp)
    (hup : 1 ≤ up.length) (hcp : 1 ≤ cp.length) :
    (∃ c, cstr_index up (size_sub (HDstrlen up) 1) = some c ∧
        size_sub (HDstrlen up) 1 < up.length) ∧
    (∃ c, cstr_index cp (size_sub (HDstrlen cp) 1) = some c ∧
        size_sub (HDstrlen cp) 1 < cp.length) ∧
    ((∀ q, path_refs loc q + path_refs obj q ≤ H5RS_count m q) →
      (join_path up name).length + 1 < SIZE_MOD →
      (join_path cp name).length + 1 < SIZE_MOD →
      m.alloc.head? ≠ some false → m.alloc.tail.head? ≠ some false →
      ∃ obj1 m1, H5G_insert_name loc obj name m = some (herr_t.SUCCEED, obj1, m1)) := by
  have hup0 : up ≠ [] := by intro e; rw [e] at hup; simp at hup
  have hcp0 : cp ≠ [] := by intro e; rw [e] at hcp; simp at hcp
  have hidx : ∀ p : List Char, 1 ≤ p.length → size_sub (HDstrlen p) 1 < p.length := by
    intro p h
    unfold size_sub HDstrlen
    rw [SIZE_MOD_eq]
    omega
  refine ⟨?_, ?_, ?_⟩
  · obtain ⟨c, hc⟩ := Option.isSome_iff_exists.mp (cstr_index_isSome up hup0)
    exact ⟨c, hc, hidx up hup⟩
  · obtain ⟨c, hc⟩ := Option.isSome_iff_exists.mp (cstr_index_isSome cp hcp0)
    exact ⟨c, hc, hidx cp hcp⟩
  · intro hrefs hfu hfc ha1 ha2
    cases hlc : loc.canon_path_r with
    | none => rw [hlc] at hc; simp [H5RS_get_str] at hc
    | some lc =>
      cases hlu : loc.user_path_r with
      | none => rw [hlu] at hu; simp [H5RS_get_str] at hu
      | some lu =>
        rw [hlu] at hu
        rw [hlc] at hc
        have r1 : 1 ≤ path_refs loc lu := by unfold path_refs; rw [hlu]; simp
        have r2 : 1 ≤ path_refs loc lc := by unfold path_refs; rw [hlc]; simp
        obtain ⟨m2, hrel, cu, hcu, eu⟩ := release_paths_keeps loc obj m lu up hrefs r1 hu
        obtain ⟨m2b, hrelb, cc, hcc, ec⟩ := release_paths_keeps loc obj m lc cp hrefs r2 hc
        rw [hrel] at hrelb
        cases hrelb
        obtain ⟨hal, -, -⟩ := release_paths_inv obj m m2 hrel
        rw [H5G_insert_name_eq loc obj name m m2 lc lu cu cc hlc hlu hrel hcu hcc]
        rw [eu, ec, hal]
        rw [if_neg hup0, if_neg ha1, if_neg (not_not.mpr hfu), if_neg hcp0, if_neg ha2,
          if_neg (not_not.mpr hfc)]
        exact ⟨_, _, rfl⟩

/-- Witness of C10: the location with the paths `/foo` and `/foo/`, an entry
that holds two other strings, and the name `bar`. -/
theorem insert_name_reads_in_bounds_witness :
    (∃ c, cstr_index "/foo".toList (size_sub (HDstrlen "/foo".toList) 1) = some c ∧
        size_sub (HDstrlen "/foo".toList) 1 < "/foo".toList.length) ∧
    (∃ c, cstr_index "/foo/".toList (size_sub (HDstrlen "/foo/".toList) 1) = some c ∧
        size_sub (HDstrlen "/foo/".toList) 1 < "/foo/".toList.length) ∧
    ∃ obj1 m1, H5G_insert_name foo_loc old_obj bar foo_mem = some (herr_t.SUCCEED, obj1, m1) :=
  have h := insert_name_reads_in_bounds foo_loc old_obj bar "/foo".toList "/foo/".toList
    foo_mem (by decide) (by decide) (by decide) (by decide)
  ⟨h.1, h.2.1, h.2.2
    (by
      intro q
      rcases q with _ | _ | _ | _ | q <;> simp [path_refs, H5RS_count, Mem.cell, foo_loc,
        old_obj, foo_mem, H5G_entry_zero])
    (by decide) (by decide) (by decide) (by decide)⟩

/-- C6, as stated, fails: when the allocation of the canonical path fails, the
call returns failure and the target has the new user path `/foo/bar` but no
canonical path; its pair of paths is neither the new pair nor the pair it had
(by pointer or by text). -/
theorem half_updated_pair_on_alloc_failure :
    H5G_insert_name foo_loc old_obj bar { foo_mem with alloc := [true, false] } =
      some (herr_t.FAIL H5E_major_t.H5E_RESOURCE H5E_minor_t.H5E_NOSPACE, half_obj, half_mem) ∧
    ¬ ((H5RS_get_str half_obj.user_path_r half_mem = some "/foo/bar".toList ∧
          H5RS_get_str half_obj.canon_path_r half_mem = some "/foo/bar".toList) ∨
        (half_obj.user_path_r = old_obj.user_path_r ∧
          half_obj.canon_path_r = old_obj.canon_path_r) ∨
        (H5RS_get_str half_obj.user_path_r half_mem =
            H5RS_get_str old_obj.user_path_r foo_mem ∧
          H5RS_get_str half_obj.canon_path_r half_mem =
            H5RS_get_str old_obj.canon_path_r foo_mem)) := by
  decide

/-- C6, amended: on a location whose two paths are cached, the user path of
length at least 1, with every string counted at least as often as `loc` and
`obj` point to it, the old paths of the target are released first (the memory
`m2`: the count of every string is lowered by the number of path pointers of
the target to it).  If the allocation of the user path then fails, the call
fails with `H5E_NOSPACE`, both paths of the target are null, its hidden flag
is 0, and the strings are those of `m2`.  If it succeeds and the allocation of the
canonical path fails, for a new user path that fits in a `size_t` and a
canonical path of length at least 1, the call fails with `H5E_NOSPACE`, the
user path of the target is the new string, appended to `m2`, its canonical
path is null and its hidden flag is 0. -/
theorem insert_name_alloc_failure (loc obj : H5G_entry_t) (name up cp : List Char) (m : Mem)
    (hu : H5RS_get_str loc.user_path_r m = some up)
    (hc : H5RS_get_str loc.canon_path_r m = some cp)
    (hup : 1 ≤ up.length)
    (hrefs : ∀ q, path_refs loc q + path_refs obj q ≤ H5RS_count m q) :
    ∃ m2, release_paths obj m = some m2 ∧
      (∀ q, H5RS_count m2 q = H5RS_count m q - path_refs obj q) ∧
      (m.alloc.head? = some false →
        H5G_insert_name loc obj name m =
          some (herr_t.FAIL H5E_major_t.H5E_RESOURCE H5E_minor_t.H5E_NOSPACE,
            { obj with user_path_r := none, canon_path_r := none, user_path_hidden := 0 },
            { rs := m2.rs, alloc := m.alloc.tail })) ∧
      (m.alloc.head? ≠ some false → m.alloc.tail.head? = some false →
        (join_path up name).length + 1 < SIZE_MOD → 1 ≤ cp.length →
        H5G_insert_name loc obj name m =
          some (herr_t.FAIL H5E_major_t.H5E_RESOURCE H5E_minor_t.H5E_NOSPACE,
            { obj with user_path_r := some m2.rs.length, canon_path_r := none,
                       user_path_hidden := 0 },
            { rs := m2.rs ++ [some { s := join_path up name, n := 1 }],
              alloc := m.alloc.tail.tail })) := by
  have hup0 : up ≠ [] := by intro e; rw [e] at hup; simp at hup
  cases hlc : loc.canon_path_r with
  | none => rw [hlc] at hc; simp [H5RS_get_str] at hc
  | some lc =>
    cases hlu : loc.user_path_r with
    | none => rw [hlu] at hu; simp [H5RS_get_str] at hu
    | some lu =>
      rw [hlu] at hu
      rw [hlc] at hc
      have r1 : 1 ≤ path_refs loc lu := by unfold path_refs; rw [hlu]; simp
      have r2 : 1 ≤ path_refs loc lc := by unfold path_refs; rw [hlc]; simp
      obtain ⟨m2, hrel, cu, hcu, eu⟩ := release_paths_keeps loc obj m lu up hrefs r1 hu
      obtain ⟨m2b, hrelb, cc, hcc, ec⟩ := release_paths_keeps loc obj m lc cp hrefs r2 hc
      rw [hrel] at hrelb
      cases hrelb
      obtain ⟨m2c, hrelc, hcount⟩ :=
        release_paths_ok obj m (fun q => by have := hrefs q; omega)
      rw [hrel] at hrelc
      cases hrelc
      obtain ⟨hal, -, -⟩ := release_paths_inv obj m m2 hrel
      refine ⟨m2, hrel, hcount, ?_, ?_⟩
      · intro ha1
        rw [H5G_insert_name_eq loc obj name m m2 lc lu cu cc hlc hlu hrel hcu hcc]
        rw [eu, ec, hal]
        rw [if_neg hup0, if_pos ha1]
      · intro ha1 ha2 hfu hcp
        have hcp0 : cp ≠ [] := by intro e; rw [e] at hcp; simp at hcp
        rw [H5G_insert_name_eq loc obj name m m2 lc lu cu cc hlc hlu hrel hcu hcc]
        rw [eu, ec, hal]
        rw [if_neg hup0, if_neg ha1, if_neg (not_not.mpr hfu), if_neg hcp0, if_pos ha2]

/-- Witness of C6, amended: the two failures on the location with the paths
`/foo` and `/foo/`, for an entry that holds the strings 2 and 3: the string 2
is freed, the count of the string 3 drops to 1. -/
theorem insert_name_alloc_failure_witness :
    H5G_insert_name foo_loc old_obj bar { foo_mem with alloc := [false] } =
      some (herr_t.FAIL H5E_major_t.H5E_RESOURCE H5E_minor_t.H5E_NOSPACE,
        { old_obj with user_path_r := none, canon_path_r := none, user_path_hidden := 0 },
        free_mem) ∧
    H5G_insert_name foo_loc old_obj bar { foo_mem with alloc := [true, false] } =
      some (herr_t.FAIL H5E_major_t.H5E_RESOURCE H5E_minor_t.H5E_NOSPACE, half_obj,
        half_mem) ∧
    H5RS_count free_mem 2 = H5RS_count foo_mem 2 - 1 ∧
    H5RS_count free_mem 3 = H5RS_count foo_mem 3 - 1 := by
  have hrefs : ∀ (al : List Bool) (q : Nat),
      path_refs foo_loc q + path_refs old_obj q ≤ H5RS_count { foo_mem with alloc := al } q := by
    intro al q
    rcases q with _ | _ | _ | _ | q <;> simp [path_refs, H5RS_count, Mem.cell, foo_loc,
      old_obj, foo_mem, H5G_entry_zero]
  obtain ⟨m2, hrel, hcount, h1, -⟩ := insert_name_alloc_failure foo_loc old_obj bar
    "/foo".toList "/foo/".toList { foo_mem with alloc := [false] }
    (by decide) (by decide) (by decide) (hrefs _)
  obtain ⟨m3, hrel3, -, -, h2⟩ := insert_name_alloc_failure foo_loc old_obj bar
    "/foo".toList "/foo/".toList { foo_mem with alloc := [true, false] }
    (by decide) (by decide) (by decide) (hrefs _)
  have e2 : m2 = { free_mem with alloc := [false] } :=
    Option.some.inj (hrel.symm.trans (by decide))
  have e3 : m3 = { free_mem with alloc := [true, false] } :=
    Option.some.inj (hrel3.symm.trans (by decide))
  subst e2 e3
  exact ⟨h1 (by decide), h2 (by decide) (by decide) (by decide) (by decide),
    hcount 2, hcount 3⟩

/-! ## The symbol-table manager -/

/-- C3: when the containers of the group and of the child differ,
`H5G_stab_insert` fails with `H5E_LINK` and changes nothing: the state of the
collaborators (index, heap, object headers), the memory and the child entry
are what they were, and no collaborator is called (the log stays as it was). -/
theorem stab_insert_cross_container {σ : Type} (lib : Lib σ) (grp_ent obj_ent : H5G_entry_t)
    (name : List Char) (m : Mem) (st : σ) (log : List Event) (gfile ofile : H5F_t)
    (hg : grp_ent.file = some gfile) (ho : obj_ent.file = some ofile) (hn : name ≠ [])
    (hs : gfile.shared ≠ ofile.shared) :
    H5G_stab_insert lib grp_ent name obj_ent m st =
        some (herr_t.FAIL H5E_major_t.H5E_SYM H5E_minor_t.H5E_LINK, obj_ent, m, st) ∧
      H5G_stab_insert (logged lib) grp_ent name obj_ent m (st, log) =
        some (herr_t.FAIL H5E_major_t.H5E_SYM H5E_minor_t.H5E_LINK, obj_ent, m, (st, log)) := by
  unfold H5G_stab_insert
  rw [hg, ho]
  simp only [hn, if_false, hs, ne_eq, not_false_eq_true, if_true, and_self]

/-- Witness of C3: an entry of container 8 is not inserted into a group of
container 7; the group keeps its one record. -/
theorem stab_insert_cross_container_witness :
    H5G_stab_insert spec_lib foo_loc bar far_obj foo_mem dir_store =
        some (herr_t.FAIL H5E_major_t.H5E_SYM H5E_minor_t.H5E_LINK, far_obj, foo_mem,
          dir_store) ∧
      H5G_stab_insert (logged spec_lib) foo_loc bar far_obj foo_mem (dir_store, []) =
        some (herr_t.FAIL H5E_major_t.H5E_SYM H5E_minor_t.H5E_LINK, far_obj, foo_mem,
          (dir_store, [])) :=
  stab_insert_cross_container spec_lib foo_loc far_obj bar foo_mem dir_store []
    { shared := 7 } { shared := 8 } rfl rfl (by decide) (by decide)

/-- C8: `H5G_stab_delete` first deletes the whole B-tree, with a `REMOVE`
context without a name that carries the given heap address.  If that fails,
the call fails and `H5HL_delete` is not called.  Only if it succeeds is the
name heap deleted, in the state the B-tree delete left.  The call succeeds
exactly when both deletes succeed. -/
theorem stab_delete_index_before_heap {σ : Type} (lib : Lib σ) (f : H5F_t)
    (btree_addr heap_addr : haddr_t) (st : σ)
    (hb : H5F_addr_defined btree_addr = true) (hh : H5F_addr_defined heap_addr = true) :
    H5G_stab_delete (logged lib) f btree_addr heap_addr (st, []) =
      some (
        if (lib.H5B_delete f btree_addr
            { operation := H5G_oper_t.H5G_OPER_REMOVE, name := none, heap_addr := heap_addr,
              ent := H5G_entry_zero } st).1 = true then
          (if (lib.H5HL_delete f heap_addr (lib.H5B_delete f btree_addr
                { operation := H5G_oper_t.H5G_OPER_REMOVE, name := none,
                  heap_addr := heap_addr, ent := H5G_entry_zero } st).2).1 = true
            then herr_t.SUCCEED
            else herr_t.FAIL H5E_major_t.H5E_SYM H5E_minor_t.H5E_CANTDELETE,
            (lib.H5HL_delete f heap_addr (lib.H5B_delete f btree_addr
                { operation := H5G_oper_t.H5G_OPER_REMOVE, name := none,
                  heap_addr := heap_addr, ent := H5G_entry_zero } st).2).2,
            [Event.B_delete btree_addr
                { operation := H5G_oper_t.H5G_OPER_REMOVE, name := none,
                  heap_addr := heap_addr, ent := H5G_entry_zero } true,
              Event.HL_delete heap_addr (lib.H5HL_delete f heap_addr
                (lib.H5B_delete f btree_addr
                  { operation := H5G_oper_t.H5G_OPER_REMOVE, name := none,
                    heap_addr := heap_addr, ent := H5G_entry_zero } st).2).1])
        else
          (herr_t.FAIL H5E_major_t.H5E_SYM H5E_minor_t.H5E_CANTDELETE,
            (lib.H5B_delete f btree_addr
              { operation := H5G_oper_t.H5G_OPER_REMOVE, name := none, heap_addr := heap_addr,
                ent := H5G_entry_zero } st).2,
            [Event.B_delete btree_addr
              { operation := H5G_oper_t.H5G_OPER_REMOVE, name := none,
                heap_addr := heap_addr, ent := H5G_entry_zero } false])) ∧
    ((∃ st1, H5G_stab_delete lib f btree_addr heap_addr st = some (herr_t.SUCCEED, st1)) ↔
      ((lib.H5B_delete f btree_addr
            { operation := H5G_oper_t.H5G_OPER_REMOVE, name := none, heap_addr := heap_addr,
              ent := H5G_entry_zero } st).1 = true ∧
        (lib.H5HL_delete f heap_addr (lib.H5B_delete f btree_addr
            { operation := H5G_oper_t.H5G_OPER_REMOVE, name := none, heap_addr := heap_addr,
              ent := H5G_entry_zero } st).2).1 = true)) := by
  unfold H5G_stab_delete logged
  simp only [hb, hh, Bool.not_true, Bool.false_eq_true, if_false]
  rcases hB : lib.H5B_delete f btree_addr
    { operation := H5G_oper_t.H5G_OPER_REMOVE, name := none, heap_addr := heap_addr,
      ent := H5G_entry_zero } st with ⟨okB, st1⟩
  cases okB
  · simp
  · rcases hH : lib.H5HL_delete f heap_addr st1 with ⟨okH, st2⟩
    cases okH <;> simp [hH]

/-- Witness of C8: deleting the symbol table of `dir_store` deletes the B-tree
at 1, then the heap at 0; where there is no B-tree the call fails and the heap
is not touched. -/
theorem stab_delete_index_before_heap_witness :
    H5G_stab_delete (logged spec_lib) file7 1 0 (dir_store, []) =
      some (herr_t.SUCCEED, { dir_store with heaps := [], btrees := [] },
        [Event.B_delete 1
            { operation := H5G_oper_t.H5G_OPER_REMOVE, name := none, heap_addr := 0,
              ent := H5G_entry_zero } true,
          Event.HL_delete 0 true]) ∧
    H5G_stab_delete (logged spec_lib) file7 5 0 (dir_store, []) =
      some (herr_t.FAIL H5E_major_t.H5E_SYM H5E_minor_t.H5E_CANTDELETE, dir_store,
        [Event.B_delete 5
            { operation := H5G_oper_t.H5G_OPER_REMOVE, name := none, heap_addr := 0,
              ent := H5G_entry_zero } false]) :=
  ⟨(stab_delete_index_before_heap spec_lib file7 1 0 dir_store (by decide) (by decide)).1.trans
      (by decide),
    (stab_delete_index_before_heap spec_lib file7 5 0 dir_store (by decide) (by decide)).1.trans
      (by decide)⟩

/-- C9, as stated, fails: with a name heap whose insert returns the failure
value, `H5G_stab_create` fails, and the heap the call created at the address 0
is still in the container. -/
theorem stab_create_leaves_heap :
    H5G_stab_create full_heap_lib file7 0 H5G_entry_zero empty_store =
      some (herr_t.FAIL H5E_major_t.H5E_SYM H5E_minor_t.H5E_CANTINIT, H5G_entry_zero,
        { empty_store with heaps := [((7, 0), [])], next := 1 }) ∧
    assoc_get (7, 0) empty_store.heaps = none ∧
    assoc_get (7, 0) ({ empty_store with heaps := [((7, 0), [])], next := 1 } : Store).heaps
      = some [] := by
  decide

/-- C9, amended: when the heap is created and the insert of the empty string
returns the failure value, `H5G_stab_create` fails with `H5E_CANTINIT`; the
calls it made are the heap creation and the heap insert only (no B-tree and no
object header is created, and the heap is not deleted), so the state is the
one the heap insert left.  When the insert returns another offset that is not
zero, `assert(0 == name)` is violated. -/
theorem stab_create_heap_insert_failure {σ : Type} (lib : Lib σ) (f : H5F_t) (init : Nat)
    (self : H5G_entry_t) (st st1 st2 : σ) (heap_addr : haddr_t) (name : Nat)
    (h1 : lib.H5HL_create f (max init (size_add (lib.H5HL_SIZEOF_FREE f) 2)) st
      = (some heap_addr, st1))
    (h2 : lib.H5HL_insert f heap_addr 1 [] st1 = (name, st2))
    (hn : name ≠ 0) :
    H5G_stab_create (logged lib) f init self (st, []) =
      if name = SIZE_MAX then
        some (herr_t.FAIL H5E_major_t.H5E_SYM H5E_minor_t.H5E_CANTINIT, self, st2,
          [Event.HL_create (some heap_addr), Event.HL_insert heap_addr name])
      else none := by
  unfold H5G_stab_create logged
  simp only [h1, h2]
  by_cases hm : name = SIZE_MAX
  · simp [hm]
  · have hm2 : ¬ SIZE_MAX = name := fun e => hm e.symm
    have hn2 : ¬ 0 = name := fun e => hn e.symm
    simp [hm, hm2, hn2]

/-- Witness of C9, amended: the heap that takes no string. -/
theorem stab_create_heap_insert_failure_witness :
    H5G_stab_create (logged full_heap_lib) file7 0 H5G_entry_zero (empty_store, []) =
      some (herr_t.FAIL H5E_major_t.H5E_SYM H5E_minor_t.H5E_CANTINIT, H5G_entry_zero,
        { empty_store with heaps := [((7, 0), [])], next := 1 },
        [Event.HL_create (some 0), Event.HL_insert 0 SIZE_MAX]) :=
  (stab_create_heap_insert_failure full_heap_lib file7 0 H5G_entry_zero empty_store
    { empty_store with heaps := [((7, 0), [])], next := 1 }
    { empty_store with heaps := [((7, 0), [])], next := 1 } 0 SIZE_MAX
    (by decide) (by decide) (by decide)).trans (by decide)

/-- Every field of the target but the two paths and the hidden flag is left
alone by `H5G_insert_name`. -/
theorem H5G_insert_name_frame (loc obj obj1 : H5G_entry_t) (name : List Char) (m m1 : Mem)
    (r : herr_t) (h : H5G_insert_name loc obj name m = some (r, obj1, m1)) :
    obj1.name_off = obj.name_off ∧ obj1.header = obj.header ∧ obj1.file = obj.file ∧
      obj1.type = obj.type ∧ obj1.cache_stab = obj.cache_stab := by
  cases hlc : loc.canon_path_r with
  | none =>
    rw [H5G_insert_name_no_canon loc obj name m hlc] at h
    simp only [Option.some.injEq, Prod.mk.injEq] at h
    obtain ⟨-, ho, -⟩ := h
    subst ho
    exact ⟨rfl, rfl, rfl, rfl, rfl⟩
  | some lc =>
    obtain ⟨lu, m2, cu, cc, hlu, hrel, hcu, hcc⟩ := H5G_insert_name_inv loc obj name m lc _ hlc h
    rw [H5G_insert_name_eq loc obj name m m2 lc lu cu cc hlc hlu hrel hcu hcc] at h
    split_ifs at h
    all_goals
      simp only [Option.some.injEq, Prod.mk.injEq] at h
      obtain ⟨-, ho, -⟩ := h
      subst ho
      exact ⟨rfl, rfl, rfl, rfl, rfl⟩

/-- C7: in a call of `H5G_stab_insert` that passes the same-container test with
a group whose paths are cached, once the paths of the child are built the rest
of the call does not touch them.  If the symbol table message cannot be read,
or if the B-tree rejects the insert, the call fails, the child has the paths
composed from the paths of the group and the name, and its name offset is the
one it had.  The name offset is replaced, by the offset the B-tree returns,
only when the B-tree insert succeeds. -/
theorem stab_insert_path_update_independent {σ : Type} (lib : Lib σ)
    (grp_ent obj_ent obj1 : H5G_entry_t) (name up cp : List Char) (m m1 : Mem) (st : σ)
    (gfile ofile : H5F_t)
    (hg : grp_ent.file = some gfile) (ho : obj_ent.file = some ofile) (hn : name ≠ [])
    (hs : gfile.shared = ofile.shared)
    (hu : H5RS_get_str grp_ent.user_path_r m = some up)
    (hc : H5RS_get_str grp_ent.canon_path_r m = some cp)
    (hins : H5G_insert_name grp_ent obj_ent name m = some (herr_t.SUCCEED, obj1, m1)) :
    H5RS_get_str obj1.user_path_r m1 = some (join_path up name) ∧
    H5RS_get_str obj1.canon_path_r m1 = some (join_path cp name) ∧
    obj1.name_off = obj_ent.name_off ∧
    ((lib.H5O_read grp_ent st).1 = none →
      H5G_stab_insert lib grp_ent name obj_ent m st =
        some (herr_t.FAIL H5E_major_t.H5E_SYM H5E_minor_t.H5E_BADMESG, obj1, m1,
          (lib.H5O_read grp_ent st).2)) ∧
    (∀ stab, (lib.H5O_read grp_ent st).1 = some stab →
      ((lib.H5B_insert gfile stab.btree_addr
            { operation := H5G_oper_t.H5G_OPER_INSERT, name := some name,
              heap_addr := stab.heap_addr,
              ent := { obj1 with user_path_r := none, canon_path_r := none } }
            (lib.H5O_read grp_ent st).2).1 = none →
        H5G_stab_insert lib grp_ent name obj_ent m st =
          some (herr_t.FAIL H5E_major_t.H5E_SYM H5E_minor_t.H5E_CANTINSERT, obj1, m1,
            (lib.H5B_insert gfile stab.btree_addr
              { operation := H5G_oper_t.H5G_OPER_INSERT, name := some name,
                heap_addr := stab.heap_addr,
                ent := { obj1 with user_path_r := none, canon_path_r := none } }
              (lib.H5O_read grp_ent st).2).2)) ∧
      (∀ udata1, (lib.H5B_insert gfile stab.btree_addr
            { operation := H5G_oper_t.H5G_OPER_INSERT, name := some name,
              heap_addr := stab.heap_addr,
              ent := { obj1 with user_path_r := none, canon_path_r := none } }
            (lib.H5O_read grp_ent st).2).1 = some udata1 →
        H5G_stab_insert lib grp_ent name obj_ent m st =
          some (herr_t.SUCCEED, { obj1 with name_off := udata1.ent.name_off }, m1,
            (lib.H5B_insert gfile stab.btree_addr
              { operation := H5G_oper_t.H5G_OPER_INSERT, name := some name,
                heap_addr := stab.heap_addr,
                ent := { obj1 with user_path_r := none, canon_path_r := none } }
              (lib.H5O_read grp_ent st).2).2))) := by
  have hsh : ¬ gfile.shared ≠ ofile.shared := fun h => h hs
  have hpaths : H5RS_get_str obj1.user_path_r m1 = some (join_path up name) ∧
      H5RS_get_str obj1.canon_path_r m1 = some (join_path cp name) := by
    cases hlc : grp_ent.canon_path_r with
    | none => rw [hlc] at hc; simp [H5RS_get_str] at hc
    | some lc =>
      obtain ⟨lu, m2, cu, cc, hlu, hrel, hcu, hcc, ho1, hm1⟩ :=
        H5G_insert_name_success grp_ent obj_ent obj1 name m m1 lc hlc hins
      rw [hlu] at hu
      rw [hlc] at hc
      have eu : cu.s = up := release_paths_text obj_ent m m2 lu cu up hrel hcu hu
      have ec : cc.s = cp := release_paths_text obj_ent m m2 lc cc cp hrel hcc hc
      rw [ho1, hm1, ← eu, ← ec]
      have hnew := cell_append_two m2.rs (some { s := join_path cu.s name, n := 1 })
        (some { s := join_path cc.s name, n := 1 }) m2.alloc.tail.tail
      constructor
      · simp only [H5RS_get_str, hnew.1, Option.map_some']
      · simp only [H5RS_get_str, hnew.2, Option.map_some']
  refine ⟨hpaths.1, hpaths.2, (H5G_insert_name_frame _ _ _ _ _ _ _ hins).1, ?_, ?_⟩
  · intro hr
    unfold H5G_stab_insert
    rw [hg, ho]
    simp only [hn, if_false, hsh, hins]
    rcases hR : lib.H5O_read grp_ent st with ⟨r, st1⟩
    rw [hR] at hr
    simp only at hr
    subst hr
    rfl
  · intro stab hr
    rcases hR : lib.H5O_read grp_ent st with ⟨r, st1⟩
    rw [hR] at hr
    simp only at hr
    subst hr
    constructor
    · intro hb
      unfold H5G_stab_insert
      rw [hg, ho]
      simp only [hn, if_false, hsh, hins, hR, H5G_ent_copy_NULL]
      rcases hB : lib.H5B_insert gfile stab.btree_addr
        { operation := H5G_oper_t.H5G_OPER_INSERT, name := some name,
          heap_addr := stab.heap_addr,
          ent := { obj1 with user_path_r := none, canon_path_r := none } } st1 with ⟨b, st2⟩
      rw [hB] at hb
      simp only at hb
      subst hb
      rfl
    · intro udata1 hb
      unfold H5G_stab_insert
      rw [hg, ho]
      simp only [hn, if_false, hsh, hins, hR, H5G_ent_copy_NULL]
      rcases hB : lib.H5B_insert gfile stab.btree_addr
        { operation := H5G_oper_t.H5G_OPER_INSERT, name := some name,
          heap_addr := stab.heap_addr,
          ent := { obj1 with user_path_r := none, canon_path_r := none } } st1 with ⟨b, st2⟩
      rw [hB] at hb
      simp only at hb
      subst hb
      rfl

/-- Witness of C7: the paths `/foo/bar` are on the child although the insert
fails, once because the group has no symbol table message and once because
the name `bar` is already in the group. -/
theorem stab_insert_path_update_independent_witness :
    H5G_stab_insert spec_lib foo_loc bar old_obj foo_mem empty_store =
      some (herr_t.FAIL H5E_major_t.H5E_SYM H5E_minor_t.H5E_BADMESG, bar_obj, bar_mem,
        empty_store) ∧
    H5G_stab_insert spec_lib foo_loc bar old_obj foo_mem dir_store =
      some (herr_t.FAIL H5E_major_t.H5E_SYM H5E_minor_t.H5E_CANTINSERT, bar_obj, bar_mem,
        dir_store) ∧
    H5RS_get_str bar_obj.user_path_r bar_mem = some "/foo/bar".toList ∧
    H5RS_get_str bar_obj.canon_path_r bar_mem = some "/foo/bar".toList ∧
    bar_obj.name_off = old_obj.name_off :=
  have h1 := stab_insert_path_update_independent spec_lib foo_loc old_obj bar_obj bar
    "/foo".toList "/foo/".toList foo_mem bar_mem empty_store file7 file7 rfl rfl
    (by decide) rfl (by decide) (by decide) (by decide)
  have h2 := stab_insert_path_update_independent spec_lib foo_loc old_obj bar_obj bar
    "/foo".toList "/foo/".toList foo_mem bar_mem dir_store file7 file7 rfl rfl
    (by decide) rfl (by decide) (by decide) (by decide)
  ⟨h1.2.2.2.1 (by decide), (h2.2.2.2.2 dir_stab (by decide)).1 (by decide), h1.1, h1.2.1,
    h1.2.2.1⟩

/-- C5, as stated, fails: a find through a group without any cached path
replaces the output entry, which held the strings 2 and 3 (`/old` and `/x`) as
its paths, by the record of `bar` with two null paths. -/
theorem stab_find_drops_paths_of_output :
    H5G_stab_find spec_lib { foo_loc with user_path_r := none, canon_path_r := none } bar
        (some old_obj) foo_mem dir_store =
      some (herr_t.SUCCEED,
        some { H5G_entry_zero with file := some { shared := 7 }, header := 64, name_off := 1 },
        foo_mem, dir_store) ∧
    H5RS_get_str old_obj.user_path_r foo_mem = some "/old".toList ∧
    H5RS_get_str old_obj.canon_path_r foo_mem = some "/x".toList ∧
    ({ H5G_entry_zero with file := some { shared := 7 }, header := 64,
                           name_off := 1 } : H5G_entry_t).user_path_r
      ≠ old_obj.user_path_r ∧
    ({ H5G_entry_zero with file := some { shared := 7 }, header := 64,
                           name_off := 1 } : H5G_entry_t).canon_path_r
      ≠ old_obj.canon_path_r := by
  decide

/-- C5, amended: a successful find through a group that has no canonical path
cached returns, in the output entry, the record found with both path pointers
null, whatever paths the output entry held; no path is built and the memory,
hence every reference count, is what it was. -/
theorem stab_find_without_paths {σ : Type} (lib : Lib σ) (grp_ent out : H5G_entry_t)
    (name : List Char) (m : Mem) (st st1 st2 : σ) (file : H5F_t) (stab : H5O_stab_t)
    (udata1 : H5G_bt_ud1_t)
    (hg : grp_ent.file = some file) (hn : name ≠ []) (hc : grp_ent.canon_path_r = none)
    (hr : lib.H5O_read grp_ent st = (some stab, st1))
    (hf : lib.H5B_find file stab.btree_addr
      { operation := H5G_oper_t.H5G_OPER_FIND, name := some name,
        heap_addr := stab.heap_addr, ent := H5G_entry_zero } st1 = (some udata1, st2)) :
    H5G_stab_find lib grp_ent name (some out) m st =
      some (herr_t.SUCCEED,
        some { udata1.ent with user_path_r := none, canon_path_r := none }, m, st2) := by
  unfold H5G_stab_find
  rw [hg]
  simp only [hn, if_false, hr, hf, H5G_ent_copy_NULL]
  rw [H5G_insert_name_no_canon grp_ent _ name m hc]

/-- Witness of C5, amended: the find of `bar` in `dir_store`. -/
theorem stab_find_without_paths_witness :
    H5G_stab_find spec_lib { foo_loc with user_path_r := none, canon_path_r := none } bar
        (some old_obj) foo_mem dir_store =
      some (herr_t.SUCCEED,
        some { H5G_entry_zero with file := some { shared := 7 }, header := 64, name_off := 1 },
        foo_mem, dir_store) :=
  stab_find_without_paths spec_lib { foo_loc with user_path_r := none, canon_path_r := none }
    old_obj bar foo_mem dir_store dir_store dir_store file7 dir_stab
    { operation := H5G_oper_t.H5G_OPER_FIND, name := some bar, heap_addr := 0,
      ent := { H5G_entry_zero with file := some { shared := 7 }, header := 64,
                                   name_off := 1 } }
    rfl (by decide) rfl (by decide) (by decide)

/-- A second `H5G_insert_name` through the same location, on an entry without
paths, returns when the first one succeeded: with success when the location
has no canonical path or no allocation fails, with `H5E_NOSPACE` when one of
the two allocations fails. -/
theorem H5G_insert_name_again (loc obj obj1 out : H5G_entry_t) (name : List Char)
    (m m1 : Mem)
    (hins : H5G_insert_name loc obj name m = some (herr_t.SUCCEED, obj1, m1))
    (hou : out.user_path_r = none) (hoc : out.canon_path_r = none) :
    ∃ out1 m2, H5G_insert_name loc out name m1 =
      some (if loc.canon_path_r = none then herr_t.SUCCEED
        else if m1.alloc.head? = some false ∨ m1.alloc.tail.head? = some false then
          herr_t.FAIL H5E_major_t.H5E_RESOURCE H5E_minor_t.H5E_NOSPACE
        else herr_t.SUCCEED, out1, m2) := by
  cases hlc : loc.canon_path_r with
  | none =>
    rw [if_pos rfl]
    exact ⟨out, m1, H5G_insert_name_no_canon loc out name m1 hlc⟩
  | some lc =>
    rw [if_neg (by simp)]
    obtain ⟨lu, m2, cu, cc, hlu, hrel, hcu, hcc⟩ :=
      H5G_insert_name_inv loc obj name m lc _ hlc hins
    have h := hins
    rw [H5G_insert_name_eq loc obj name m m2 lc lu cu cc hlc hlu hrel hcu hcc] at h
    split_ifs at h with c1 c2 c3 c4 c5 c6
    all_goals first | (simp at h; done) | skip
    simp only [Option.some.injEq, Prod.mk.injEq, true_and] at h
    obtain ⟨-, hm1⟩ := h
    have hrel2 : release_paths out m1 = some m1 := release_paths_none out m1 hou hoc
    have hcu2 : m1.cell lu = some cu := by
      rw [← hm1, List.append_assoc]
      exact cell_append_old m2.rs _ m2.alloc _ lu cu hcu
    have hcc2 : m1.cell lc = some cc := by
      rw [← hm1, List.append_assoc]
      exact cell_append_old m2.rs _ m2.alloc _ lc cc hcc
    rw [H5G_insert_name_eq loc out name m1 m1 lc lu cu cc hlc hlu hrel2 hcu2 hcc2]
    rw [if_neg c1]
    by_cases ha1 : m1.alloc.head? = some false
    · rw [if_pos ha1, if_pos (Or.inl ha1)]
      exact ⟨_, _, rfl⟩
    · rw [if_neg ha1, if_neg (not_not.mpr c3), if_neg c4]
      by_cases ha2 : m1.alloc.tail.head? = some false
      · rw [if_pos ha2, if_pos (Or.inr ha2)]
        exact ⟨_, _, rfl⟩
      · rw [if_neg ha2, if_neg (not_not.mpr c6), if_neg (by
          intro hor
          cases hor with
          | inl h => exact ha1 h
          | inr h => exact ha2 h)]
        exact ⟨_, _, rfl⟩

/-- A key is bound to the value last put. -/
theorem assoc_get_put {κ α : Type} [DecidableEq κ] (k : κ) (v : α) (l : List (κ × α)) :
    assoc_get k (assoc_put k v l) = some v := by
  simp [assoc_get, assoc_put]

/-- Reading the symbol table message in the model leaves the state alone. -/
theorem spec_lib_read_state (ent : H5G_entry_t) (st : Store) :
    (spec_lib.H5O_read ent st).2 = st := by
  unfold spec_lib
  simp only
  cases ent.file with
  | none => rfl
  | some f =>
    simp only
    cases assoc_get (f.shared, ent.header) st.headers with
    | none => rfl
    | some o => cases o <;> rfl

/-- The symbol table message is read from the object headers only. -/
theorem spec_lib_read_headers (ent : H5G_entry_t) (st st2 : Store)
    (h : st2.headers = st.headers) :
    (spec_lib.H5O_read ent st2).1 = (spec_lib.H5O_read ent st).1 := by
  unfold spec_lib
  simp only
  cases ent.file with
  | none => rfl
  | some f =>
    simp only [h]
    cases assoc_get (f.shared, ent.header) st.headers with
    | none => rfl
    | some o => cases o <;> rfl

/-- A successful insert into the B-tree of the model: the record handed over,
with the offset of its name, is the one the name is bound to afterwards. -/
theorem spec_lib_insert_some (f : H5F_t) (addr : haddr_t) (udata u1 : H5G_bt_ud1_t)
    (st st2 : Store) (h : spec_lib.H5B_insert f addr udata st = (some u1, st2)) :
    ∃ name recs, udata.name = some name ∧ st2.headers = st.headers ∧
      assoc_get (f.shared, addr) st2.btrees = some ((name, u1.ent) :: recs) ∧
      u1.ent = { udata.ent with name_off := u1.ent.name_off } := by
  unfold spec_lib at h
  simp only at h
  cases hb : assoc_get (f.shared, addr) st.btrees with
  | none => rw [hb] at h; simp at h
  | some recs =>
    cases hh : assoc_get (f.shared, udata.heap_addr) st.heaps with
    | none => rw [hb, hh] at h; simp at h
    | some data =>
      cases hnm : udata.name with
      | none => rw [hb, hh, hnm] at h; simp at h
      | some name =>
        rw [hb, hh, hnm] at h
        simp only at h
        cases hr : assoc_get name recs with
        | some x => rw [hr] at h; simp at h
        | none =>
          rw [hr] at h
          simp only [Prod.mk.injEq, Option.some.injEq] at h
          obtain ⟨hu, hst⟩ := h
          subst hu hst
          exact ⟨name, recs, rfl, rfl, assoc_get_put _ _ _, rfl⟩

/-- The find of a name that is bound in the B-tree of the model. -/
theorem spec_lib_find_bound (f : H5F_t) (addr : haddr_t) (udata : H5G_bt_ud1_t)
    (st : Store) (name : List Char) (ent : H5G_entry_t)
    (recs : List (List Char × H5G_entry_t))
    (hn : udata.name = some name)
    (hb : assoc_get (f.shared, addr) st.btrees = some ((name, ent) :: recs)) :
    spec_lib.H5B_find f addr udata st = (some { udata with ent := ent }, st) := by
  unfold spec_lib
  simp only [hb, hn, assoc_get, if_true]

/-- C1, as stated, fails: the insert of `baz` into the group of `dir_store`
succeeds, and the find of `baz` that follows fails, because the allocation of
the path buffer fails; the output entry has the address of the child all the
same. -/
theorem stab_find_after_insert_can_fail :
    H5G_stab_insert spec_lib foo_loc "baz".toList old_obj
        { foo_mem with alloc := [true, true, false] } dir_store =
      some (herr_t.SUCCEED, baz_obj, { baz_mem with alloc := [false] }, baz_store) ∧
    H5G_stab_find spec_lib foo_loc "baz".toList (some H5G_entry_zero)
        { baz_mem with alloc := [false] } baz_store =
      some (herr_t.FAIL H5E_major_t.H5E_SYM H5E_minor_t.H5E_CANTINIT,
        some { H5G_entry_zero with file := some { shared := 7 }, header := 96, name_off := 5 },
        baz_mem, baz_store) := by
  decide

/-- C1, amended: with the index and the heap modelled as a name-to-record map
(`spec_lib`), when `H5G_stab_insert grp n e` succeeds, a following
`H5G_stab_find grp n out` returns and the output entry has the address of `e`:
it is the entry `H5G_insert_name` makes of the record stored, which is the
child entry as the insert left it, without its paths.
The find succeeds when the group has no canonical path cached or none of its
two path buffer allocations fails; when the group has a canonical path and one
of the two allocations fails, it fails with `H5E_CANTINIT`. -/
theorem stab_insert_find_round_trip (grp e e1 out : H5G_entry_t) (name : List Char)
    (m m1 : Mem) (st st1 : Store)
    (hins : H5G_stab_insert spec_lib grp name e m st = some (herr_t.SUCCEED, e1, m1, st1)) :
    ∃ out1 m2, H5G_stab_find spec_lib grp name (some out) m1 st1 =
        some (if grp.canon_path_r = none then herr_t.SUCCEED
          else if m1.alloc.head? = some false ∨ m1.alloc.tail.head? = some false then
            herr_t.FAIL H5E_major_t.H5E_SYM H5E_minor_t.H5E_CANTINIT
          else herr_t.SUCCEED, some out1, m2, st1) ∧
      out1.header = e.header ∧
      H5G_insert_name grp { e1 with user_path_r := none, canon_path_r := none } name m1 =
        some (if grp.canon_path_r = none then herr_t.SUCCEED
          else if m1.alloc.head? = some false ∨ m1.alloc.tail.head? = some false then
            herr_t.FAIL H5E_major_t.H5E_RESOURCE H5E_minor_t.H5E_NOSPACE
          else herr_t.SUCCEED, out1, m2) := by
  unfold H5G_stab_insert at hins
  cases hg : grp.file with
  | none => rw [hg] at hins; simp at hins
  | some gfile =>
    cases ho : e.file with
    | none => rw [hg, ho] at hins; simp at hins
    | some ofile =>
      rw [hg, ho] at hins
      simp only at hins
      by_cases hn : name = []
      · simp [hn] at hins
      · simp only [hn, if_false] at hins
        by_cases hs : gfile.shared ≠ ofile.shared
        · simp [hs] at hins
        · simp only [hs, if_false] at hins
          cases hi : H5G_insert_name grp e name m with
          | none => rw [hi] at hins; simp at hins
          | some res =>
            obtain ⟨rr, obj1, mi⟩ := res
            rw [hi] at hins
            cases rr with
            | FAIL a b => simp at hins
            | SUCCEED =>
              simp only at hins
              rcases hR : spec_lib.H5O_read grp st with ⟨ro, sr⟩
              have hsr : sr = st := by
                have := spec_lib_read_state grp st
                rw [hR] at this
                exact this
              subst hsr
              rw [hR] at hins
              cases ro with
              | none => simp at hins
              | some stab =>
                simp only [H5G_ent_copy_NULL] at hins
                rcases hB : spec_lib.H5B_insert gfile stab.btree_addr
                  { operation := H5G_oper_t.H5G_OPER_INSERT, name := some name,
                    heap_addr := stab.heap_addr,
                    ent := { obj1 with user_path_r := none, canon_path_r := none } } sr
                  with ⟨bo, sb⟩
                rw [hB] at hins
                cases bo with
                | none => simp at hins
                | some u1 =>
                  simp only [Option.some.injEq, Prod.mk.injEq, true_and] at hins
                  obtain ⟨he1, hm, hst⟩ := hins
                  subst he1 hm hst
                  obtain ⟨nm, recs, hnm, hhd, hbt, hent⟩ :=
                    spec_lib_insert_some gfile stab.btree_addr _ u1 sr sb hB
                  simp only [Option.some.injEq] at hnm
                  subst hnm
                  simp only [H5G_ent_copy_NULL] at hent
                  have hR2 : spec_lib.H5O_read grp sb = (some stab, sb) := by
                    have h1 := spec_lib_read_headers grp sr sb hhd
                    have h2 := spec_lib_read_state grp sb
                    rw [hR] at h1
                    exact Prod.ext h1 h2
                  have hF := spec_lib_find_bound gfile stab.btree_addr
                    { operation := H5G_oper_t.H5G_OPER_FIND, name := some name,
                      heap_addr := stab.heap_addr, ent := H5G_entry_zero } sb name u1.ent recs
                    rfl hbt
                  -- the record stored is the child entry without its paths
                  have hrec : ({ u1.ent with user_path_r := none, canon_path_r := none }
                      : H5G_entry_t) =
                      { ({ obj1 with name_off := u1.ent.name_off } : H5G_entry_t) with
                        user_path_r := none, canon_path_r := none } := by
                    rw [hent]
                  obtain ⟨out1, m2, hag⟩ := H5G_insert_name_again grp e obj1
                    { u1.ent with user_path_r := none, canon_path_r := none } name m mi hi
                    rfl rfl
                  have hfr := (H5G_insert_name_frame _ _ _ _ _ _ _ hag).2.1
                  have hfr0 := (H5G_insert_name_frame _ _ _ _ _ _ _ hi).2.1
                  have hhdr : u1.ent.header = obj1.header := by rw [hent]
                  simp only at hfr
                  have hhead : out1.header = e.header := by rw [hfr, hhdr, hfr0]
                  have hag2 := hag
                  rw [hrec] at hag2
                  unfold H5G_stab_find
                  rw [hg]
                  simp only [hn, if_false, hR2, hF, H5G_ent_copy_NULL, hag]
                  by_cases hcn : grp.canon_path_r = none
                  · simp only [hcn, if_true] at hag2 ⊢
                    exact ⟨out1, m2, rfl, hhead, hag2⟩
                  · by_cases hal : mi.alloc.head? = some false ∨
                        mi.alloc.tail.head? = some false
                    · simp only [hcn, hal, if_false, if_true] at hag2 ⊢
                      exact ⟨out1, m2, rfl, hhead, hag2⟩
                    · simp only [hcn, hal, if_false] at hag2 ⊢
                      exact ⟨out1, m2, rfl, hhead, hag2⟩

/-- Witness of C1, amended: the insert of `baz` into the group of `dir_store`
and the find that follows, which succeeds without allocation failure and
fails with `H5E_CANTINIT` when its first allocation fails. -/
theorem stab_insert_find_round_trip_witness :
    H5G_stab_insert spec_lib foo_loc "baz".toList old_obj foo_mem dir_store =
      some (herr_t.SUCCEED, baz_obj, baz_mem, baz_store) ∧
    (∃ out1 m2, H5G_stab_find spec_lib foo_loc "baz".toList (some H5G_entry_zero)
        baz_mem baz_store = some (herr_t.SUCCEED, some out1, m2, baz_store) ∧
      out1.header = old_obj.header) ∧
    (∃ out1 m2, H5G_stab_find spec_lib foo_loc "baz".toList (some H5G_entry_zero)
        { baz_mem with alloc := [false] } baz_store =
          some (herr_t.FAIL H5E_major_t.H5E_SYM H5E_minor_t.H5E_CANTINIT, some out1, m2,
            baz_store) ∧
      out1.header = old_obj.header) := by
  obtain ⟨o1, n1, h1, a1, -⟩ := stab_insert_find_round_trip foo_loc old_obj baz_obj
    H5G_entry_zero "baz".toList foo_mem baz_mem dir_store baz_store (by decide)
  obtain ⟨o2, n2, h2, a2, -⟩ := stab_insert_find_round_trip foo_loc old_obj baz_obj
    H5G_entry_zero "baz".toList { foo_mem with alloc := [true, true, false] }
    { baz_mem with alloc := [false] } dir_store baz_store (by decide)
  exact ⟨by decide, ⟨o1, n1, h1, a1⟩, ⟨o2, n2, h2, a2⟩⟩

end H5G
